import Mathlib

/-!
# qd: quadruped inverse kinematics and message codec

A shallow embedding of `src/Arduino/qd/QDMessage.cpp` and `src/Arduino/qd/Robot.cpp`.

* 32-bit words (`uint32_t`) are natural numbers; a `float` field of a message record is
  carried as its 32-bit pattern, which is what `htonf` / `ntohf` operate on.
* In the kinematics, a finite `float` is idealised as a real number and a value that is
  not a number (the result of a division by zero, or of an inverse trigonometric function
  outside its domain) is `none`.  The macros `PI` and `PIOver2` are the real numbers they
  approximate.  Rounding is not modelled: sums, products, quotients and square roots are
  exact, so a quotient that the source forms from rounded values and that lands just outside
  [-1, 1] is inside it here.  The statement on when the three angles are numbers therefore
  takes the range of the two second-stage quotients as hypotheses.
-/

namespace QD

/-! ## Message codec: definitions -/

/-- Byte number `i` of a word, the `ptr[i]` of `swap32` (lowest address first). -/
def byteAt (x i : Nat) : Nat := (x / 256 ^ i) % 256

/-- The 32-bit word whose bytes, lowest address first, are `b0 b1 b2 b3`. -/
def ofBytes (b0 b1 b2 b3 : Nat) : Nat := b0 + 256 * b1 + 65536 * b2 + 16777216 * b3

/-- The function `swap32` of QDMessage.cpp: two XOR swaps on the four bytes of the word,
statement by statement. -/
def swap32 (iValue : Nat) : Nat :=
  let p0 := byteAt iValue 0
  let p1 := byteAt iValue 1
  let p2 := byteAt iValue 2
  let p3 := byteAt iValue 3
  let p0 := p0 ^^^ p3
  let p3 := p3 ^^^ p0
  let p0 := p0 ^^^ p3
  let p1 := p1 ^^^ p2
  let p2 := p2 ^^^ p1
  let p1 := p1 ^^^ p2
  ofBytes p0 p1 p2 p3

/-- The macro `ntohl`, defined as `swap32`. -/
def ntohl (x : Nat) : Nat := swap32 x

/-- The macro `htonl`, defined as `swap32`. -/
def htonl (x : Nat) : Nat := swap32 x

/-- The function `htonf`: the bit pattern of the float, passed through `htonl`. -/
def htonf (iValue : Nat) : Nat := htonl iValue

/-- The function `ntohf`: `ntohl` of the word, whose result is read back as a float (the
float being carried as its bit pattern). -/
def ntohf (iValue : Nat) : Nat :=
  let hostOrder := ntohl iValue
  hostOrder

/-- The record `QDPose` (host order); float fields as bit patterns. -/
structure QDPose where
  type : Nat
  hips : Fin 4 → Nat
  shoulders : Fin 4 → Nat
  elbows : Fin 4 → Nat
  timestamp : Nat

/-- The record `QDFeedback` (host order); float fields as bit patterns. -/
structure QDFeedback where
  type : Nat
  hips : Fin 4 → Nat
  shoulders : Fin 4 → Nat
  elbows : Fin 4 → Nat
  orientation : Fin 4 → Nat

/-- The record `QDPoseSwapped` (network order). -/
structure QDPoseSwapped where
  type : Nat
  hips : Fin 4 → Nat
  shoulders : Fin 4 → Nat
  elbows : Fin 4 → Nat
  timestamp : Nat

/-- The record `QDFeedbackSwapped` (network order). -/
structure QDFeedbackSwapped where
  type : Nat
  hips : Fin 4 → Nat
  shoulders : Fin 4 → Nat
  elbows : Fin 4 → Nat
  orientation : Fin 4 → Nat

/-- The converting constructor `QDPose::QDPose(const QDPoseSwapped &)`. -/
def QDPose.fromSwapped (iPose : QDPoseSwapped) : QDPose where
  type := ntohl iPose.type
  timestamp := ntohl iPose.timestamp
  hips := fun i => ntohf (iPose.hips i)
  shoulders := fun i => ntohf (iPose.shoulders i)
  elbows := fun i => ntohf (iPose.elbows i)

/-- The converting constructor `QDFeedback::QDFeedback(const QDFeedbackSwapped &)`. -/
def QDFeedback.fromSwapped (iFeedback : QDFeedbackSwapped) : QDFeedback where
  type := ntohl iFeedback.type
  hips := fun i => ntohf (iFeedback.hips i)
  shoulders := fun i => ntohf (iFeedback.shoulders i)
  elbows := fun i => ntohf (iFeedback.elbows i)
  orientation := fun i => ntohf (iFeedback.orientation i)

/-- The converting constructor `QDPoseSwapped::QDPoseSwapped(const QDPose &)`. -/
def QDPoseSwapped.fromHost (iPose : QDPose) : QDPoseSwapped where
  type := htonl iPose.type
  timestamp := htonl iPose.timestamp
  hips := fun i => htonf (iPose.hips i)
  shoulders := fun i => htonf (iPose.shoulders i)
  elbows := fun i => htonf (iPose.elbows i)

/-- The converting constructor `QDFeedbackSwapped::QDFeedbackSwapped(const QDFeedback &)`. -/
def QDFeedbackSwapped.fromHost (iFeedback : QDFeedback) : QDFeedbackSwapped where
  type := htonl iFeedback.type
  hips := fun i => htonf (iFeedback.hips i)
  shoulders := fun i => htonf (iFeedback.shoulders i)
  elbows := fun i => htonf (iFeedback.elbows i)
  orientation := fun i => htonf (iFeedback.orientation i)

/-- Every field of the record is a 32-bit pattern. -/
def QDPose.Is32 (p : QDPose) : Prop :=
  p.type < 2 ^ 32 ∧ p.timestamp < 2 ^ 32 ∧
    ∀ i, p.hips i < 2 ^ 32 ∧ p.shoulders i < 2 ^ 32 ∧ p.elbows i < 2 ^ 32

/-- Every field of the record is a 32-bit pattern. -/
def QDFeedback.Is32 (f : QDFeedback) : Prop :=
  f.type < 2 ^ 32 ∧
    ∀ i, f.hips i < 2 ^ 32 ∧ f.shoulders i < 2 ^ 32 ∧ f.elbows i < 2 ^ 32 ∧
      f.orientation i < 2 ^ 32

/-- Every field of the record is a 32-bit pattern. -/
def QDPoseSwapped.Is32 (p : QDPoseSwapped) : Prop :=
  p.type < 2 ^ 32 ∧ p.timestamp < 2 ^ 32 ∧
    ∀ i, p.hips i < 2 ^ 32 ∧ p.shoulders i < 2 ^ 32 ∧ p.elbows i < 2 ^ 32

/-- Every field of the record is a 32-bit pattern. -/
def QDFeedbackSwapped.Is32 (f : QDFeedbackSwapped) : Prop :=
  f.type < 2 ^ 32 ∧
    ∀ i, f.hips i < 2 ^ 32 ∧ f.shoulders i < 2 ^ 32 ∧ f.elbows i < 2 ^ 32 ∧
      f.orientation i < 2 ^ 32

/-- A sample Pose record: the floats 1.0, 2.0, -0.5 and a NaN pattern among the fields. -/
def samplePose : QDPose where
  type := 1
  hips := fun i => 0x3F800000 + i.val
  shoulders := fun _ => 0x40000000
  elbows := fun i => if i = 3 then 0x7FC00001 else 0xBF000000
  timestamp := 0xDEADBEEF

/-- A sample Feedback record. -/
def sampleFeedback : QDFeedback where
  type := 0xFFFFFFFF
  hips := fun i => 0x3F800000 + 256 * i.val
  shoulders := fun _ => 0
  elbows := fun _ => 0x80000000
  orientation := fun i => 0x12345678 + i.val

/-- A sample swapped Pose record. -/
def samplePoseSwapped : QDPoseSwapped where
  type := 0x01000000
  hips := fun i => 0x0000803F + 65536 * i.val
  shoulders := fun _ => 0x00000040
  elbows := fun _ => 0x000000BF
  timestamp := 0xEFBEADDE

/-- A sample swapped Feedback record. -/
def sampleFeedbackSwapped : QDFeedbackSwapped where
  type := 2
  hips := fun _ => 0x0000803F
  shoulders := fun i => i.val
  elbows := fun _ => 0xFFFFFFFF
  orientation := fun _ => 0x78563412

/-! ## Kinematics: definitions -/

noncomputable section

/-- The macro `PI` of Robot.hpp (3.141592653589793), idealised as the real number it
approximates. -/
def PI : ℝ := Real.pi

/-- The macro `PIOver2` of Robot.hpp (1.570796326794897), idealised as half of `PI`. -/
def PIOver2 : ℝ := Real.pi / 2

/-- Modelled from the spec: the vector type of LinearAlgebra.hpp, which is not among the
sources.  A vector with indexed component access; it has the four components that
`Robot::setAngles` reads (indices 0 to 3), the first three being the spatial ones. -/
structure Vector4 where
  x : ℝ
  y : ℝ
  z : ℝ
  w : ℝ

/-- Modelled from the spec: indexed component access `v[i]` (LinearAlgebra.hpp). -/
def Vector4.get (v : Vector4) (i : Nat) : ℝ :=
  match i with
  | 0 => v.x
  | 1 => v.y
  | 2 => v.z
  | _ => v.w

/-- Modelled from the spec: the three-argument constructor `Vector4(x, y, z)`
(LinearAlgebra.hpp). -/
def Vector4.mk3 (x y z : ℝ) : Vector4 := ⟨x, y, z, 0⟩

/-- Modelled from the spec: the unit vector `Vector4::j` (LinearAlgebra.hpp). -/
def Vector4.j : Vector4 := Vector4.mk3 0 1 0

/-- Modelled from the spec: the unit vector `Vector4::k` (LinearAlgebra.hpp). -/
def Vector4.k : Vector4 := Vector4.mk3 0 0 1

/-- Modelled from the spec: vector subtraction (LinearAlgebra.hpp), componentwise. -/
def Vector4.sub (a b : Vector4) : Vector4 := ⟨a.x - b.x, a.y - b.y, a.z - b.z, a.w - b.w⟩

/-- Modelled from the spec: vector addition (LinearAlgebra.hpp), componentwise. -/
def Vector4.add (a b : Vector4) : Vector4 := ⟨a.x + b.x, a.y + b.y, a.z + b.z, a.w + b.w⟩

/-- Modelled from the spec: multiplication of a vector by a scalar (LinearAlgebra.hpp). -/
def Vector4.smul (a : Vector4) (s : ℝ) : Vector4 := ⟨a.x * s, a.y * s, a.z * s, a.w * s⟩

/-- Modelled from the spec: the dot-product-like multiply operator of two vectors
(LinearAlgebra.hpp), over the three spatial components. -/
def Vector4.dot (a b : Vector4) : ℝ := a.x * b.x + a.y * b.y + a.z * b.z

/-- Modelled from the spec: the matrix type of LinearAlgebra.hpp, by rows. -/
structure Matrix4 where
  r0 : Vector4
  r1 : Vector4
  r2 : Vector4
  r3 : Vector4

/-- Modelled from the spec: the constructor `Matrix4(axis, angle)` of LinearAlgebra.hpp, the
rotation matrix about the unit vector `axis` by `angle` (counterclockwise seen from the tip of
the axis), which leaves the fourth component alone. -/
def Matrix4.rotation (axis : Vector4) (angle : ℝ) : Matrix4 :=
  let c := Real.cos angle
  let s := Real.sin angle
  let t := 1 - c
  { r0 := ⟨c + axis.x * axis.x * t, axis.x * axis.y * t - axis.z * s,
           axis.x * axis.z * t + axis.y * s, 0⟩
    r1 := ⟨axis.y * axis.x * t + axis.z * s, c + axis.y * axis.y * t,
           axis.y * axis.z * t - axis.x * s, 0⟩
    r2 := ⟨axis.z * axis.x * t - axis.y * s, axis.z * axis.y * t + axis.x * s,
           c + axis.z * axis.z * t, 0⟩
    r3 := ⟨0, 0, 0, 1⟩ }

/-- Modelled from the spec: matrix-vector multiplication (LinearAlgebra.hpp). -/
def Matrix4.mulVec (m : Matrix4) (v : Vector4) : Vector4 :=
  ⟨m.r0.x * v.x + m.r0.y * v.y + m.r0.z * v.z + m.r0.w * v.w,
   m.r1.x * v.x + m.r1.y * v.y + m.r1.z * v.z + m.r1.w * v.w,
   m.r2.x * v.x + m.r2.y * v.y + m.r2.z * v.z + m.r2.w * v.w,
   m.r3.x * v.x + m.r3.y * v.y + m.r3.z * v.z + m.r3.w * v.w⟩

/-- The enumeration `Robot::Limb::Configuration`. -/
inductive Configuration where
  | frontRight
  | frontLeft
  | backRight
  | backLeft
  deriving DecidableEq

/-- The cases `frontLeft` and `backLeft` of the two `switch` statements on the configuration;
every other value takes their `default` branch. -/
def Configuration.isLeft : Configuration → Bool
  | .frontLeft => true
  | .backLeft => true
  | _ => false

/-- A quotient `a / b` of floats: not a finite number when the divisor is zero. -/
def fdiv (a b : ℝ) : Option ℝ := if b = 0 then none else some (a / b)

/-- The library function `sqrtf`: not a number on a negative argument. -/
def sqrtf (x : ℝ) : Option ℝ := if 0 ≤ x then some (Real.sqrt x) else none

/-- The library function `acosf`: not a number outside [-1, 1]. -/
def acosf (x : ℝ) : Option ℝ := if -1 ≤ x ∧ x ≤ 1 then some (Real.arccos x) else none

/-- The library function `asinf`: not a number outside [-1, 1]. -/
def asinf (x : ℝ) : Option ℝ := if -1 ≤ x ∧ x ≤ 1 then some (Real.arcsin x) else none

/-- The library function `atan2f`: the angle of the point `(x, y)`, in (-π, π]. -/
def atan2f (y x : ℝ) : ℝ := Complex.arg ⟨x, y⟩

/-- The comparison `a > b` of floats, false when the right operand is not a number. -/
def fgt (a : ℝ) (b : Option ℝ) : Bool :=
  match b with
  | some b => decide (a > b)
  | none => false

/-- Sum of two floats, not a number when an operand is not. -/
def fadd (a b : Option ℝ) : Option ℝ := do
  let a ← a
  let b ← b
  pure (a + b)

/-- Difference of two floats, not a number when an operand is not. -/
def fsub (a b : Option ℝ) : Option ℝ := do
  let a ← a
  let b ← b
  pure (a - b)

/-- Product of two floats, not a number when an operand is not. -/
def fmul (a b : Option ℝ) : Option ℝ := do
  let a ← a
  let b ← b
  pure (a * b)

/-- The structure `Robot::Limb`.  The angles are floats that the solve may leave not a
number. -/
structure Limb where
  configuration : Configuration
  rootOffset : Vector4
  l0 : ℝ
  l0sq : ℝ
  l1 : ℝ
  l1sq : ℝ
  l2 : ℝ
  l2sq : ℝ
  hipAngle : Option ℝ
  shoulderAngle : Option ℝ
  elbowAngle : Option ℝ

/-- The constructor `Robot::Limb::Limb`.  It leaves the three angles uninitialised: `h0`,
`s0`, `e0` are whatever the angle fields hold. -/
def Limb.new (iConfig : Configuration) (iRootOffset : Vector4)
    (iHipToShoulder iShoulderToElbow iElbowToToe : ℝ) (h0 s0 e0 : Option ℝ) : Limb where
  configuration := iConfig
  rootOffset := iRootOffset
  l0 := iHipToShoulder
  l0sq := iHipToShoulder * iHipToShoulder
  l1 := iShoulderToElbow
  l1sq := iShoulderToElbow * iShoulderToElbow
  l2 := iElbowToToe
  l2sq := iElbowToToe * iElbowToToe
  hipAngle := h0
  shoulderAngle := s0
  elbowAngle := e0

/-- The method `Robot::Limb::normalizeTarget`. -/
def Limb.normalizeTarget (self : Limb) (iTarget : Vector4) : Vector4 :=
  let normalized := iTarget.sub self.rootOffset
  if self.configuration.isLeft then
    let rotation := Matrix4.rotation Vector4.j PI
    rotation.mulVec normalized
  else
    normalized

/-- The method `Robot::Limb::denormalizeTarget`.  The local `target` is declared without an
initialiser; `target0` is the value the default constructor of the vector type gives it. -/
def Limb.denormalizeTarget (self : Limb) (target0 : Vector4) (iNormalized : Vector4) :
    Vector4 :=
  let target :=
    if self.configuration.isLeft then
      let rotation := Matrix4.rotation Vector4.j (-PI)
      rotation.mulVec iNormalized
    else
      target0
  target.add self.rootOffset

/-- The method `Robot::Limb::calcIKAngles`, statement by statement.  A local that the source
computes from a value that is not a number is itself not a number. -/
def Limb.calcIKAngles (self : Limb) (iTarget : Vector4) : Limb :=
  let dsq : ℝ := iTarget.get 0 * iTarget.get 0 + iTarget.get 1 * iTarget.get 1
  let d : Option ℝ := sqrtf dsq
  let e : Option ℝ := do
    let d ← d
    let q ← fdiv self.l0 d
    acosf q
  let n : Option ℝ := do
    let d ← d
    fdiv 1 d
  let unitp : Option Vector4 := do
    let n ← n
    pure (Vector4.mk3 (iTarget.get 0 * n) (iTarget.get 1 * n) 0)
  let mat : Option Matrix4 := do
    let e ← e
    pure (Matrix4.rotation Vector4.k e)
  let v : Option Vector4 := do
    let mat ← mat
    let unitp ← unitp
    pure ((mat.mulVec unitp).smul self.l0)
  let hipAngle : Option ℝ := do
    let v ← v
    pure (-atan2f (v.get 1) (v.get 0))
  let p : Option Vector4 := do
    let v ← v
    pure (iTarget.sub v)
  let dsq : Option ℝ := do
    let p ← p
    pure (p.dot p)
  let d : Option ℝ := do
    let dsq ← dsq
    sqrtf dsq
  let at_ : Option ℝ := do
    let d ← d
    let q ← fdiv (iTarget.get 2) d
    asinf q
  let ae : Option ℝ :=
    if fgt (self.l1 + self.l2) d then do
      let dsq ← dsq
      let q ← fdiv (0.5 * (self.l1sq + self.l2sq - dsq)) (self.l1 * self.l2)
      acosf q
    else some PI
  let a1 : Option ℝ :=
    if fgt (self.l1 + self.l2) d then do
      let dsq ← dsq
      let d ← d
      let q ← fdiv (0.5 * (self.l1sq + dsq - self.l2sq)) (self.l1 * d)
      acosf q
    else some 0
  let r : Limb :=
    if self.configuration.isLeft then
      { self with
        hipAngle := hipAngle
        shoulderAngle := fsub (fadd at_ a1) (some PIOver2)
        elbowAngle := fsub (some PI) ae }
    else
      { self with
        hipAngle := fmul hipAngle (some (-1))
        shoulderAngle := fsub (some PIOver2) (fadd at_ a1)
        elbowAngle := fsub ae (some PI) }
  { r with
    hipAngle := fadd r.hipAngle (some PI)
    shoulderAngle := fadd r.shoulderAngle (some PI)
    elbowAngle := fadd r.elbowAngle (some PI) }

/-- The accessor `Robot::Limb::operator[] const`. -/
def Limb.get (self : Limb) (i : Int) : Option ℝ :=
  match i with
  | 0 => self.hipAngle
  | 1 => self.shoulderAngle
  | _ => self.elbowAngle

/-- An assignment through the reference returned by the mutable `Robot::Limb::operator[]`. -/
def Limb.set (self : Limb) (i : Int) (a : Option ℝ) : Limb :=
  match i with
  | 0 => { self with hipAngle := a }
  | 1 => { self with shoulderAngle := a }
  | _ => { self with elbowAngle := a }

/-- The structure `Robot`: four limbs and their four stored targets. -/
structure Robot where
  limbs : Fin 4 → Limb
  ikTargets : Fin 4 → Vector4

/-- The constructor `Robot::Robot`.  The angles of limb `i` start as `h0 i`, `s0 i`, `e0 i`
(the limb constructor does not initialise them) and every stored target as `target0`, the
value the default constructor of the vector type gives. -/
def Robot.new (iHipToShoulder iShoulderToElbow iElbowToToe : ℝ)
    (iFrontRightRootPosition iFrontLeftRootPosition iBackRightRootPosition
      iBackLeftRootPosition : Vector4)
    (h0 s0 e0 : Fin 4 → Option ℝ) (target0 : Vector4) : Robot where
  limbs := fun i =>
    match i with
    | 0 => Limb.new .frontRight iFrontRightRootPosition iHipToShoulder iShoulderToElbow
        iElbowToToe (h0 0) (s0 0) (e0 0)
    | 1 => Limb.new .frontLeft iFrontLeftRootPosition iHipToShoulder iShoulderToElbow
        iElbowToToe (h0 1) (s0 1) (e0 1)
    | 2 => Limb.new .backRight iBackRightRootPosition iHipToShoulder iShoulderToElbow
        iElbowToToe (h0 2) (s0 2) (e0 2)
    | 3 => Limb.new .backLeft iBackLeftRootPosition iHipToShoulder iShoulderToElbow
        iElbowToToe (h0 3) (s0 3) (e0 3)
  ikTargets := fun _ => target0

/-- The method `Robot::setIKTargets`. -/
def Robot.setIKTargets (self : Robot)
    (iFrontRightTarget iFrontLeftTarget iBackRightTarget iBackLeftTarget : Vector4) : Robot :=
  let t := self.ikTargets
  let t := Function.update t 0 ((self.limbs 0).normalizeTarget iFrontRightTarget)
  let t := Function.update t 1 ((self.limbs 1).normalizeTarget iFrontLeftTarget)
  let t := Function.update t 2 ((self.limbs 2).normalizeTarget iBackRightTarget)
  let t := Function.update t 3 ((self.limbs 3).normalizeTarget iBackLeftTarget)
  { self with ikTargets := t }

/-- The body of the loop of `Robot::setAngles` for the index `i`. -/
def Robot.setAnglesStep (iHipAngles iShoulderAngles iElbowAngles : Vector4) (self : Robot)
    (i : Fin 4) : Robot :=
  let l := self.limbs i
  let l := l.set 0 (some (iHipAngles.get i))
  let l := l.set 1 (some (iShoulderAngles.get i))
  let l := l.set 2 (some (iElbowAngles.get i))
  { self with limbs := Function.update self.limbs i l }

/-- The method `Robot::setAngles`: the loop `i = 4; while(i--)` visits 3, 2, 1, 0. -/
def Robot.setAngles (self : Robot) (iHipAngles iShoulderAngles iElbowAngles : Vector4) :
    Robot :=
  [3, 2, 1, 0].foldl (Robot.setAnglesStep iHipAngles iShoulderAngles iElbowAngles) self

/-- The body of the loop of `Robot::update` for the index `i`. -/
def Robot.updateStep (self : Robot) (i : Fin 4) : Robot :=
  { self with
    limbs := Function.update self.limbs i ((self.limbs i).calcIKAngles (self.ikTargets i)) }

/-- The method `Robot::update`: the loop `i = 4; while(i--)` visits 3, 2, 1, 0. -/
def Robot.update (self : Robot) : Robot :=
  [3, 2, 1, 0].foldl Robot.updateStep self

/-- The local `v` of `calcIKAngles`, the shoulder joint found by the hip stage. -/
def Limb.calcIK_v (self : Limb) (iTarget : Vector4) : Option Vector4 :=
  let dsq : ℝ := iTarget.get 0 * iTarget.get 0 + iTarget.get 1 * iTarget.get 1
  let d : Option ℝ := sqrtf dsq
  let e : Option ℝ := do
    let d ← d
    let q ← fdiv self.l0 d
    acosf q
  let n : Option ℝ := do
    let d ← d
    fdiv 1 d
  let unitp : Option Vector4 := do
    let n ← n
    pure (Vector4.mk3 (iTarget.get 0 * n) (iTarget.get 1 * n) 0)
  let mat : Option Matrix4 := do
    let e ← e
    pure (Matrix4.rotation Vector4.k e)
  do
    let mat ← mat
    let unitp ← unitp
    pure ((mat.mulVec unitp).smul self.l0)

/-- The value `-atan2f(v[1], v[0])` first given to `hipAngle` by `calcIKAngles`. -/
def Limb.calcIK_hip (self : Limb) (iTarget : Vector4) : Option ℝ := do
  let v ← self.calcIK_v iTarget
  pure (-atan2f (v.get 1) (v.get 0))

/-- The local `p` of `calcIKAngles`, the vector from the shoulder joint to the target. -/
def Limb.calcIK_p (self : Limb) (iTarget : Vector4) : Option Vector4 := do
  let v ← self.calcIK_v iTarget
  pure (iTarget.sub v)

/-- The second value of the local `dsq` of `calcIKAngles`, `p * p` with `p = iTarget - v`. -/
def Limb.calcIK_dsq (self : Limb) (iTarget : Vector4) : Option ℝ := do
  let p ← self.calcIK_p iTarget
  pure (p.dot p)

/-- The second value of the local `d` of `calcIKAngles`, the distance from the shoulder joint
to the target. -/
def Limb.calcIK_d (self : Limb) (iTarget : Vector4) : Option ℝ := do
  let dsq ← self.calcIK_dsq iTarget
  sqrtf dsq

/-- The local `at` of `calcIKAngles`. -/
def Limb.calcIK_at (self : Limb) (iTarget : Vector4) : Option ℝ := do
  let d ← self.calcIK_d iTarget
  let q ← fdiv (iTarget.get 2) d
  asinf q

/-- The local `ae` of `calcIKAngles`.  The quotient is exact here; the source forms it from
the rounded `l1sq`, `l2sq` and `dsq`. -/
def Limb.calcIK_ae (self : Limb) (iTarget : Vector4) : Option ℝ :=
  if fgt (self.l1 + self.l2) (self.calcIK_d iTarget) then do
    let dsq ← self.calcIK_dsq iTarget
    let q ← fdiv (0.5 * (self.l1sq + self.l2sq - dsq)) (self.l1 * self.l2)
    acosf q
  else some PI

/-- The local `a1` of `calcIKAngles`.  The quotient is exact here; the source forms it from
the rounded `l1sq`, `l2sq`, `dsq` and `d`. -/
def Limb.calcIK_a1 (self : Limb) (iTarget : Vector4) : Option ℝ :=
  if fgt (self.l1 + self.l2) (self.calcIK_d iTarget) then do
    let dsq ← self.calcIK_dsq iTarget
    let d ← self.calcIK_d iTarget
    let q ← fdiv (0.5 * (self.l1sq + dsq - self.l2sq)) (self.l1 * d)
    acosf q
  else some 0

/-- The planar distance of the hip stage, `sqrt(x² + y²)`. -/
def planarDist (t : Vector4) : ℝ := Real.sqrt (t.x * t.x + t.y * t.y)

/-- The shoulder joint `v` of the hip stage as a real vector: the unit planar vector toward
the target, rotated by `acos(l0 / d)` about `Vector4::k` and scaled by `l0` (meaningful when
`0 < l0 ≤ d`). -/
def Limb.shoulderJoint (self : Limb) (t : Vector4) : Vector4 :=
  ((Matrix4.rotation Vector4.k (Real.arccos (self.l0 / planarDist t))).mulVec
    (Vector4.mk3 (t.x * (1 / planarDist t)) (t.y * (1 / planarDist t)) 0)).smul self.l0

/-- The distance from the shoulder joint to the target, the `d` of the second stage. -/
def Limb.toeDist (self : Limb) (t : Vector4) : ℝ :=
  Real.sqrt ((t.sub (self.shoulderJoint t)).dot (t.sub (self.shoulderJoint t)))

/-- The limb is one of the two left-side ones. -/
def Limb.IsLeft (self : Limb) : Prop :=
  self.configuration = .frontLeft ∨ self.configuration = .backLeft

/-- The limb is one of the two right-side ones. -/
def Limb.IsRight (self : Limb) : Prop :=
  self.configuration = .frontRight ∨ self.configuration = .backRight


/-- A sample right-side limb with link lengths 1, 2, 2 and its hip at the origin. -/
def sampleRight : Limb := Limb.new .frontRight (Vector4.mk3 0 0 0) 1 2 2 none none none

/-- A sample left-side limb with link lengths 1, 2, 2 and its hip at the origin. -/
def sampleLeft : Limb := Limb.new .frontLeft (Vector4.mk3 0 0 0) 1 2 2 none none none

/-- The end-to-end scenario: a robot with link lengths 5, 10, 10 and root offsets `r0` to
`r3`, every target set to the root offset of its limb plus (0, 15, -10), then one update. -/
def endToEnd (r0 r1 r2 r3 : Vector4) (h0 s0 e0 : Fin 4 → Option ℝ) (target0 : Vector4) :
    Robot :=
  ((Robot.new 5 10 10 r0 r1 r2 r3 h0 s0 e0 target0).setIKTargets
    (r0.add (Vector4.mk3 0 15 (-10))) (r1.add (Vector4.mk3 0 15 (-10)))
    (r2.add (Vector4.mk3 0 15 (-10))) (r3.add (Vector4.mk3 0 15 (-10)))).update

/-- The end-to-end scenario with root offsets at the four corners (3, 2), (3, -2), (-3, 2),
(-3, -2) of the body. -/
def endToEndSample : Robot :=
  endToEnd (Vector4.mk3 3 2 0) (Vector4.mk3 3 (-2) 0) (Vector4.mk3 (-3) 2 0)
    (Vector4.mk3 (-3) (-2) 0) (fun _ => none) (fun _ => none) (fun _ => none)
    (Vector4.mk3 0 0 0)

/-- The configuration with the numeric value `i` in the enumeration
`Robot::Limb::Configuration`: 0 = frontRight, 1 = frontLeft, 2 = backRight, 3 = backLeft. -/
def Configuration.ofIndex (i : Fin 4) : Configuration :=
  match i with
  | 0 => .frontRight
  | 1 => .frontLeft
  | 2 => .backRight
  | 3 => .backLeft

/-- The root position that `Robot::Robot` hands to the limb of index `i`. -/
def rootOf (r0 r1 r2 r3 : Vector4) (i : Fin 4) : Vector4 :=
  match i with
  | 0 => r0
  | 1 => r1
  | 2 => r2
  | 3 => r3

/-- The robots reachable from the construction `Robot(l0, l1, l2, r0, r1, r2, r3)` by calls
of `setIKTargets`, `setAngles` and `update`, in any number and order. -/
inductive Robot.Reachable (l0 l1 l2 : ℝ) (r0 r1 r2 r3 : Vector4) : Robot → Prop
  | new (h0 s0 e0 : Fin 4 → Option ℝ) (target0 : Vector4) :
      Robot.Reachable l0 l1 l2 r0 r1 r2 r3 (Robot.new l0 l1 l2 r0 r1 r2 r3 h0 s0 e0 target0)
  | setIKTargets {r : Robot} (a b c d : Vector4) :
      Robot.Reachable l0 l1 l2 r0 r1 r2 r3 r →
        Robot.Reachable l0 l1 l2 r0 r1 r2 r3 (r.setIKTargets a b c d)
  | setAngles {r : Robot} (h s e : Vector4) :
      Robot.Reachable l0 l1 l2 r0 r1 r2 r3 r →
        Robot.Reachable l0 l1 l2 r0 r1 r2 r3 (r.setAngles h s e)
  | update {r : Robot} :
      Robot.Reachable l0 l1 l2 r0 r1 r2 r3 r → Robot.Reachable l0 l1 l2 r0 r1 r2 r3 r.update

end

/-! ## Message codec: theorems -/

theorem xor_swap_snd (a b : Nat) : b ^^^ (a ^^^ b) = a := by
  rw [Nat.xor_comm a b, Nat.xor_cancel_left]

theorem xor_swap_fst (a b : Nat) : (a ^^^ b) ^^^ a = b := by
  rw [Nat.xor_comm a b, Nat.xor_cancel_right]

theorem swap32_eq (x : Nat) :
    swap32 x = ofBytes (byteAt x 3) (byteAt x 2) (byteAt x 1) (byteAt x 0) := by
  simp only [swap32, xor_swap_fst, xor_swap_snd]

theorem byteAt_lt (x i : Nat) : byteAt x i < 256 := by
  unfold byteAt
  omega

theorem byteAt_ofBytes {b0 b1 b2 b3 : Nat} (h0 : b0 < 256) (h1 : b1 < 256) (h2 : b2 < 256)
    (h3 : b3 < 256) :
    byteAt (ofBytes b0 b1 b2 b3) 0 = b0 ∧ byteAt (ofBytes b0 b1 b2 b3) 1 = b1 ∧
      byteAt (ofBytes b0 b1 b2 b3) 2 = b2 ∧ byteAt (ofBytes b0 b1 b2 b3) 3 = b3 := by
  norm_num [ofBytes, byteAt]
  omega

theorem ofBytes_byteAt (x : Nat) (h : x < 2 ^ 32) :
    ofBytes (byteAt x 0) (byteAt x 1) (byteAt x 2) (byteAt x 3) = x := by
  norm_num [ofBytes, byteAt] at *
  omega

theorem swap32_lt (x : Nat) : swap32 x < 2 ^ 32 := by
  have h0 := byteAt_lt x 0
  have h1 := byteAt_lt x 1
  have h2 := byteAt_lt x 2
  have h3 := byteAt_lt x 3
  rw [swap32_eq]
  simp only [ofBytes]
  omega

theorem swap32_swap32 (x : Nat) (h : x < 2 ^ 32) : swap32 (swap32 x) = x := by
  obtain ⟨e0, e1, e2, e3⟩ :=
    byteAt_ofBytes (byteAt_lt x 3) (byteAt_lt x 2) (byteAt_lt x 1) (byteAt_lt x 0)
  rw [swap32_eq (swap32 x), swap32_eq x, e0, e1, e2, e3]
  exact ofBytes_byteAt x h

theorem ntohl_htonl (x : Nat) (h : x < 2 ^ 32) : ntohl (htonl x) = x :=
  swap32_swap32 x h

theorem ntohf_htonf (x : Nat) (h : x < 2 ^ 32) : ntohf (htonf x) = x :=
  swap32_swap32 x h

theorem htonl_ntohl (x : Nat) (h : x < 2 ^ 32) : htonl (ntohl x) = x :=
  swap32_swap32 x h

theorem htonf_ntohf (x : Nat) (h : x < 2 ^ 32) : htonf (ntohf x) = x :=
  swap32_swap32 x h

theorem swap32_ofBytes {b0 b1 b2 b3 : Nat} (h0 : b0 < 256) (h1 : b1 < 256) (h2 : b2 < 256)
    (h3 : b3 < 256) : swap32 (ofBytes b0 b1 b2 b3) = ofBytes b3 b2 b1 b0 := by
  obtain ⟨e0, e1, e2, e3⟩ := byteAt_ofBytes h0 h1 h2 h3
  rw [swap32_eq, e0, e1, e2, e3]

/-- C9: converting a Pose or a Feedback record whose fields are 32-bit patterns to its
swapped form and back gives the original record, field for field (type, timestamp and the
four elements of each array), and so does converting a swapped record to host form and
back. -/
theorem byte_order_round_trip (p : QDPose) (f : QDFeedback) (ps : QDPoseSwapped)
    (fs : QDFeedbackSwapped) (hp : p.Is32) (hf : f.Is32) (hps : ps.Is32) (hfs : fs.Is32) :
    QDPose.fromSwapped (QDPoseSwapped.fromHost p) = p ∧
      QDFeedback.fromSwapped (QDFeedbackSwapped.fromHost f) = f ∧
      QDPoseSwapped.fromHost (QDPose.fromSwapped ps) = ps ∧
      QDFeedbackSwapped.fromHost (QDFeedback.fromSwapped fs) = fs := by
  refine ⟨?_, ?_, ?_, ?_⟩
  · obtain ⟨ty, hi, sh, el, ts⟩ := p
    obtain ⟨h1, h2, h3⟩ := hp
    simp only [QDPose.fromSwapped, QDPoseSwapped.fromHost, QDPose.mk.injEq]
    refine ⟨ntohl_htonl _ h1, ?_, ?_, ?_, ntohl_htonl _ h2⟩ <;> funext i
    · exact ntohf_htonf _ (h3 i).1
    · exact ntohf_htonf _ (h3 i).2.1
    · exact ntohf_htonf _ (h3 i).2.2
  · obtain ⟨ty, hi, sh, el, ori⟩ := f
    obtain ⟨h1, h3⟩ := hf
    simp only [QDFeedback.fromSwapped, QDFeedbackSwapped.fromHost, QDFeedback.mk.injEq]
    refine ⟨ntohl_htonl _ h1, ?_, ?_, ?_, ?_⟩ <;> funext i
    · exact ntohf_htonf _ (h3 i).1
    · exact ntohf_htonf _ (h3 i).2.1
    · exact ntohf_htonf _ (h3 i).2.2.1
    · exact ntohf_htonf _ (h3 i).2.2.2
  · obtain ⟨ty, hi, sh, el, ts⟩ := ps
    obtain ⟨h1, h2, h3⟩ := hps
    simp only [QDPose.fromSwapped, QDPoseSwapped.fromHost, QDPoseSwapped.mk.injEq]
    refine ⟨htonl_ntohl _ h1, ?_, ?_, ?_, htonl_ntohl _ h2⟩ <;> funext i
    · exact htonf_ntohf _ (h3 i).1
    · exact htonf_ntohf _ (h3 i).2.1
    · exact htonf_ntohf _ (h3 i).2.2
  · obtain ⟨ty, hi, sh, el, ori⟩ := fs
    obtain ⟨h1, h3⟩ := hfs
    simp only [QDFeedback.fromSwapped, QDFeedbackSwapped.fromHost, QDFeedbackSwapped.mk.injEq]
    refine ⟨htonl_ntohl _ h1, ?_, ?_, ?_, ?_⟩ <;> funext i
    · exact htonf_ntohf _ (h3 i).1
    · exact htonf_ntohf _ (h3 i).2.1
    · exact htonf_ntohf _ (h3 i).2.2.1
    · exact htonf_ntohf _ (h3 i).2.2.2

theorem byte_order_round_trip_witness :
    samplePose.Is32 ∧ sampleFeedback.Is32 ∧ samplePoseSwapped.Is32 ∧
      sampleFeedbackSwapped.Is32 ∧
      QDPose.fromSwapped (QDPoseSwapped.fromHost samplePose) = samplePose ∧
      QDFeedback.fromSwapped (QDFeedbackSwapped.fromHost sampleFeedback) = sampleFeedback ∧
      QDPoseSwapped.fromHost (QDPose.fromSwapped samplePoseSwapped) = samplePoseSwapped ∧
      QDFeedbackSwapped.fromHost (QDFeedback.fromSwapped sampleFeedbackSwapped) =
        sampleFeedbackSwapped :=
  have hp : samplePose.Is32 := by
    simp only [QDPose.Is32, samplePose]; decide
  have hf : sampleFeedback.Is32 := by
    simp only [QDFeedback.Is32, sampleFeedback]; decide
  have hps : samplePoseSwapped.Is32 := by
    simp only [QDPoseSwapped.Is32, samplePoseSwapped]; decide
  have hfs : sampleFeedbackSwapped.Is32 := by
    simp only [QDFeedbackSwapped.Is32, sampleFeedbackSwapped]; decide
  ⟨hp, hf, hps, hfs,
    byte_order_round_trip samplePose sampleFeedback samplePoseSwapped sampleFeedbackSwapped
      hp hf hps hfs⟩

/-- C10: on a word with bytes b0 b1 b2 b3, swap32 returns the word with bytes b3 b2 b1 b0,
and each field of a converted record (type, timestamp, each element of hips, shoulders,
elbows and orientation) is swap32 of the same field of the source record. -/
theorem conversion_reverses_each_field (b0 b1 b2 b3 : Nat) (h0 : b0 < 256) (h1 : b1 < 256)
    (h2 : b2 < 256) (h3 : b3 < 256) (p : QDPose) (f : QDFeedback) (ps : QDPoseSwapped)
    (fs : QDFeedbackSwapped) (i : Fin 4) :
    swap32 (ofBytes b0 b1 b2 b3) = ofBytes b3 b2 b1 b0 ∧
      ((QDPoseSwapped.fromHost p).type = swap32 p.type ∧
        (QDPoseSwapped.fromHost p).timestamp = swap32 p.timestamp ∧
        (QDPoseSwapped.fromHost p).hips i = swap32 (p.hips i) ∧
        (QDPoseSwapped.fromHost p).shoulders i = swap32 (p.shoulders i) ∧
        (QDPoseSwapped.fromHost p).elbows i = swap32 (p.elbows i)) ∧
      ((QDFeedbackSwapped.fromHost f).type = swap32 f.type ∧
        (QDFeedbackSwapped.fromHost f).hips i = swap32 (f.hips i) ∧
        (QDFeedbackSwapped.fromHost f).shoulders i = swap32 (f.shoulders i) ∧
        (QDFeedbackSwapped.fromHost f).elbows i = swap32 (f.elbows i) ∧
        (QDFeedbackSwapped.fromHost f).orientation i = swap32 (f.orientation i)) ∧
      ((QDPose.fromSwapped ps).type = swap32 ps.type ∧
        (QDPose.fromSwapped ps).timestamp = swap32 ps.timestamp ∧
        (QDPose.fromSwapped ps).hips i = swap32 (ps.hips i) ∧
        (QDPose.fromSwapped ps).shoulders i = swap32 (ps.shoulders i) ∧
        (QDPose.fromSwapped ps).elbows i = swap32 (ps.elbows i)) ∧
      ((QDFeedback.fromSwapped fs).type = swap32 fs.type ∧
        (QDFeedback.fromSwapped fs).hips i = swap32 (fs.hips i) ∧
        (QDFeedback.fromSwapped fs).shoulders i = swap32 (fs.shoulders i) ∧
        (QDFeedback.fromSwapped fs).elbows i = swap32 (fs.elbows i) ∧
        (QDFeedback.fromSwapped fs).orientation i = swap32 (fs.orientation i)) :=
  ⟨swap32_ofBytes h0 h1 h2 h3, ⟨rfl, rfl, rfl, rfl, rfl⟩, ⟨rfl, rfl, rfl, rfl, rfl⟩,
    ⟨rfl, rfl, rfl, rfl, rfl⟩, ⟨rfl, rfl, rfl, rfl, rfl⟩⟩

theorem conversion_reverses_each_field_witness :
    swap32 (ofBytes 0x78 0x56 0x34 0x12) = ofBytes 0x12 0x34 0x56 0x78 ∧
      (QDPoseSwapped.fromHost samplePose).hips 2 = swap32 (samplePose.hips 2) :=
  have h := conversion_reverses_each_field 0x78 0x56 0x34 0x12 (by decide) (by decide)
    (by decide) (by decide) samplePose sampleFeedback samplePoseSwapped sampleFeedbackSwapped 2
  ⟨h.1, h.2.1.2.2.1⟩

/-! ## Kinematics: theorems -/

section Kinematics

theorem isLeft_of_IsLeft {l : Limb} (h : l.IsLeft) : l.configuration.isLeft = true := by
  rcases h with h | h <;> rw [h] <;> rfl

theorem isLeft_of_IsRight {l : Limb} (h : l.IsRight) : l.configuration.isLeft = false := by
  rcases h with h | h <;> rw [h] <;> rfl

/-- The body of `calcIKAngles` in terms of its locals `at`, `ae`, `a1` and the first value of
`hipAngle`. -/
theorem calcIKAngles_eq (self : Limb) (t : Vector4) :
    self.calcIKAngles t =
      if self.configuration.isLeft then
        { self with
          hipAngle := fadd (self.calcIK_hip t) (some PI)
          shoulderAngle :=
            fadd (fsub (fadd (self.calcIK_at t) (self.calcIK_a1 t)) (some PIOver2)) (some PI)
          elbowAngle := fadd (fsub (some PI) (self.calcIK_ae t)) (some PI) }
      else
        { self with
          hipAngle := fadd (fmul (self.calcIK_hip t) (some (-1))) (some PI)
          shoulderAngle :=
            fadd (fsub (some PIOver2) (fadd (self.calcIK_at t) (self.calcIK_a1 t))) (some PI)
          elbowAngle := fadd (fsub (self.calcIK_ae t) (some PI)) (some PI) } := by
  unfold Limb.calcIKAngles
  cases self.configuration.isLeft <;> rfl

theorem sqrtf_of_nonneg {x : ℝ} (h : 0 ≤ x) : sqrtf x = some (Real.sqrt x) := if_pos h

theorem fdiv_of_ne (a : ℝ) {b : ℝ} (h : b ≠ 0) : fdiv a b = some (a / b) := if_neg h

theorem fdiv_zero (a : ℝ) : fdiv a 0 = none := if_pos rfl

theorem acosf_of_mem {x : ℝ} (h1 : -1 ≤ x) (h2 : x ≤ 1) : acosf x = some (Real.arccos x) :=
  if_pos ⟨h1, h2⟩

theorem asinf_of_mem {x : ℝ} (h1 : -1 ≤ x) (h2 : x ≤ 1) : asinf x = some (Real.arcsin x) :=
  if_pos ⟨h1, h2⟩

theorem acosf_of_gt {x : ℝ} (h : 1 < x) : acosf x = none :=
  if_neg fun hx => absurd hx.2 (not_le.mpr h)

theorem planar_sq_nonneg (t : Vector4) : 0 ≤ t.x * t.x + t.y * t.y :=
  add_nonneg (mul_self_nonneg _) (mul_self_nonneg _)

theorem planarDist_sq (t : Vector4) : planarDist t * planarDist t = t.x * t.x + t.y * t.y :=
  Real.mul_self_sqrt (planar_sq_nonneg t)

/-- The hip stage is defined when `0 < l0 ≤ d`, and then yields `shoulderJoint`. -/
theorem calcIK_v_eq (self : Limb) (t : Vector4) (h0 : 0 < self.l0)
    (h1 : self.l0 ≤ planarDist t) : self.calcIK_v t = some (self.shoulderJoint t) := by
  have hd : 0 < planarDist t := lt_of_lt_of_le h0 h1
  have hq1 : self.l0 / planarDist t ≤ 1 := (div_le_one hd).mpr h1
  have hq0 : -1 ≤ self.l0 / planarDist t := by
    have : 0 ≤ self.l0 / planarDist t := div_nonneg h0.le hd.le
    linarith
  have hs : sqrtf (t.x * t.x + t.y * t.y) = some (planarDist t) :=
    sqrtf_of_nonneg (planar_sq_nonneg t)
  simp [Limb.calcIK_v, Limb.shoulderJoint, Vector4.get, hs, fdiv_of_ne _ hd.ne',
    acosf_of_mem hq0 hq1]

theorem tangent_algebra (a b c s D l z : ℝ) (hab : a * a + b * b = 1)
    (hcs : s ^ 2 + c ^ 2 = 1) (hDc : D * c = l) :
    (a * D - (c * a + -s * b) * l) * (a * D - (c * a + -s * b) * l) +
        (b * D - (s * a + c * b) * l) * (b * D - (s * a + c * b) * l) + z * z =
      a * D * (a * D) + b * D * (b * D) + z * z - l * l := by
  linear_combination (-2 * D * l * c + l ^ 2 * (c ^ 2 + s ^ 2)) * hab + l ^ 2 * hcs +
    (-2 * l) * hDc

/-- The shoulder joint is the tangent point: the squared distance from it to the target is
`x² + y² + z² - l0²`. -/
theorem shoulderJoint_dsq (self : Limb) (t : Vector4) (h0 : 0 < self.l0)
    (h1 : self.l0 ≤ planarDist t) :
    (t.sub (self.shoulderJoint t)).dot (t.sub (self.shoulderJoint t)) =
      t.x * t.x + t.y * t.y + t.z * t.z - self.l0 * self.l0 := by
  have hd : 0 < planarDist t := lt_of_lt_of_le h0 h1
  have hq1 : self.l0 / planarDist t ≤ 1 := (div_le_one hd).mpr h1
  have hq0 : -1 ≤ self.l0 / planarDist t := by
    have : 0 ≤ self.l0 / planarDist t := div_nonneg h0.le hd.le
    linarith
  have hDc : planarDist t * Real.cos (Real.arccos (self.l0 / planarDist t)) = self.l0 := by
    rw [Real.cos_arccos hq0 hq1]
    field_simp
  have hcs := Real.sin_sq_add_cos_sq (Real.arccos (self.l0 / planarDist t))
  have hD := planarDist_sq t
  have hx : t.x = t.x / planarDist t * planarDist t := by field_simp
  have hy : t.y = t.y / planarDist t * planarDist t := by field_simp
  have hab : t.x / planarDist t * (t.x / planarDist t) +
      t.y / planarDist t * (t.y / planarDist t) = 1 := by
    field_simp
    linarith
  have key := tangent_algebra (t.x / planarDist t) (t.y / planarDist t) _ _ _ _ t.z hab hcs hDc
  rw [← hx, ← hy] at key
  rw [← key]
  simp only [Limb.shoulderJoint, Matrix4.rotation, Matrix4.mulVec, Vector4.k, Vector4.mk3,
    Vector4.smul, Vector4.sub, Vector4.dot]
  simp only [mul_one_div]
  ring

theorem dot_self_nonneg (p : Vector4) : 0 ≤ p.dot p :=
  add_nonneg (add_nonneg (mul_self_nonneg _) (mul_self_nonneg _)) (mul_self_nonneg _)

theorem toeDist_nonneg (self : Limb) (t : Vector4) : 0 ≤ self.toeDist t := Real.sqrt_nonneg _

theorem toeDist_mul_self (self : Limb) (t : Vector4) :
    self.toeDist t * self.toeDist t =
      (t.sub (self.shoulderJoint t)).dot (t.sub (self.shoulderJoint t)) :=
  Real.mul_self_sqrt (dot_self_nonneg _)

/-- The squared second-stage distance is `x² + y² + z² - l0²`. -/
theorem toeDist_sq (self : Limb) (t : Vector4) (h0 : 0 < self.l0)
    (h1 : self.l0 ≤ planarDist t) :
    self.toeDist t * self.toeDist t =
      t.x * t.x + t.y * t.y + t.z * t.z - self.l0 * self.l0 := by
  rw [toeDist_mul_self, shoulderJoint_dsq self t h0 h1]

theorem calcIK_dsq_eq (self : Limb) (t : Vector4)
    (hv : self.calcIK_v t = some (self.shoulderJoint t)) :
    self.calcIK_dsq t = some (self.toeDist t * self.toeDist t) := by
  simp [Limb.calcIK_dsq, Limb.calcIK_p, hv, toeDist_mul_self]

theorem calcIK_d_eq (self : Limb) (t : Vector4)
    (hv : self.calcIK_v t = some (self.shoulderJoint t)) :
    self.calcIK_d t = some (self.toeDist t) := by
  have h : sqrtf (self.toeDist t * self.toeDist t) = some (self.toeDist t) := by
    rw [sqrtf_of_nonneg (mul_self_nonneg _), Real.sqrt_mul_self (toeDist_nonneg self t)]
  simp [Limb.calcIK_d, calcIK_dsq_eq self t hv, h]

theorem abs_z_le_toeDist (self : Limb) (t : Vector4) (h0 : 0 < self.l0)
    (h1 : self.l0 ≤ planarDist t) : |t.z| ≤ self.toeDist t := by
  apply abs_le_of_sq_le_sq _ (toeDist_nonneg self t)
  have h2 := toeDist_sq self t h0 h1
  have h3 := planarDist_sq t
  have h4 : self.l0 * self.l0 ≤ planarDist t * planarDist t :=
    mul_self_le_mul_self h0.le h1
  nlinarith

/-- The tilt angle `at` is defined when the second-stage distance is positive. -/
theorem calcIK_at_eq (self : Limb) (t : Vector4) (h0 : 0 < self.l0)
    (h1 : self.l0 ≤ planarDist t) (hd : 0 < self.toeDist t) :
    self.calcIK_at t = some (Real.arcsin (t.z / self.toeDist t)) := by
  have hz := abs_le.mp (abs_z_le_toeDist self t h0 h1)
  have hq1 : t.z / self.toeDist t ≤ 1 := (div_le_one hd).mpr hz.2
  have hq0 : -1 ≤ t.z / self.toeDist t := by
    rw [le_div_iff₀ hd]
    linarith
  simp [Limb.calcIK_at, calcIK_d_eq self t (calcIK_v_eq self t h0 h1), Vector4.get,
    fdiv_of_ne _ hd.ne', asinf_of_mem hq0 hq1]

/-- Beyond full extension the elbow angle saturates. -/
theorem calcIK_ae_sat (self : Limb) (t : Vector4)
    (hv : self.calcIK_v t = some (self.shoulderJoint t))
    (hs : self.l1 + self.l2 ≤ self.toeDist t) : self.calcIK_ae t = some PI := by
  simp [Limb.calcIK_ae, calcIK_d_eq self t hv, fgt, not_lt.mpr hs]

/-- Beyond full extension the shoulder-to-target angle saturates. -/
theorem calcIK_a1_sat (self : Limb) (t : Vector4)
    (hv : self.calcIK_v t = some (self.shoulderJoint t))
    (hs : self.l1 + self.l2 ≤ self.toeDist t) : self.calcIK_a1 t = some 0 := by
  simp [Limb.calcIK_a1, calcIK_d_eq self t hv, fgt, not_lt.mpr hs]

/-- Within reach, `ae` is the inverse cosine of the law-of-cosines quotient. -/
theorem calcIK_ae_reach (self : Limb) (t : Vector4)
    (hv : self.calcIK_v t = some (self.shoulderJoint t))
    (hr : self.toeDist t < self.l1 + self.l2) :
    self.calcIK_ae t =
      (fdiv (0.5 * (self.l1sq + self.l2sq - self.toeDist t * self.toeDist t))
        (self.l1 * self.l2)).bind acosf := by
  simp [Limb.calcIK_ae, calcIK_d_eq self t hv, calcIK_dsq_eq self t hv, fgt, hr]

/-- Within reach, `a1` is the inverse cosine of the law-of-cosines quotient. -/
theorem calcIK_a1_reach (self : Limb) (t : Vector4)
    (hv : self.calcIK_v t = some (self.shoulderJoint t))
    (hr : self.toeDist t < self.l1 + self.l2) :
    self.calcIK_a1 t =
      (fdiv (0.5 * (self.l1sq + self.toeDist t * self.toeDist t - self.l2sq))
        (self.l1 * self.toeDist t)).bind acosf := by
  simp [Limb.calcIK_a1, calcIK_d_eq self t hv, calcIK_dsq_eq self t hv, fgt, hr]

/-- The law-of-cosines quotient for `ae` lies in [-1, 1] when the three sides form a
triangle. -/
theorem ae_arg_mem {l1 l2 d : ℝ} (p1 : 0 < l1) (p2 : 0 < l2) (hd : 0 ≤ d) (hlo : |l1 - l2| ≤ d)
    (hhi : d ≤ l1 + l2) :
    -1 ≤ 0.5 * (l1 * l1 + l2 * l2 - d * d) / (l1 * l2) ∧
      0.5 * (l1 * l1 + l2 * l2 - d * d) / (l1 * l2) ≤ 1 := by
  have hp : 0 < l1 * l2 := mul_pos p1 p2
  obtain ⟨a1, a2⟩ := abs_le.mp hlo
  rw [le_div_iff₀ hp, div_le_iff₀ hp]
  constructor
  · nlinarith [mul_nonneg hd (by linarith : 0 ≤ l1 + l2 - d),
      mul_nonneg (by linarith : 0 ≤ l1 + l2) (by linarith : 0 ≤ l1 + l2 - d)]
  · nlinarith [mul_nonneg (by linarith : 0 ≤ d - (l1 - l2)) (by linarith : 0 ≤ d + (l1 - l2))]

/-- The law-of-cosines quotient for `a1` lies in [-1, 1] when the three sides form a
triangle. -/
theorem a1_arg_mem {l1 d : ℝ} (l2 : ℝ) (p1 : 0 < l1) (hd : 0 < d) (hlo : |l1 - l2| ≤ d)
    (hhi : d ≤ l1 + l2) :
    -1 ≤ 0.5 * (l1 * l1 + d * d - l2 * l2) / (l1 * d) ∧
      0.5 * (l1 * l1 + d * d - l2 * l2) / (l1 * d) ≤ 1 := by
  have hp : 0 < l1 * d := mul_pos p1 hd
  obtain ⟨a1, a2⟩ := abs_le.mp hlo
  rw [le_div_iff₀ hp, div_le_iff₀ hp]
  constructor
  · nlinarith [mul_nonneg (by linarith : 0 ≤ l1 + d - l2) (by linarith : 0 ≤ l1 + d + l2)]
  · nlinarith [mul_nonneg (by linarith : 0 ≤ l2 - (l1 - d)) (by linarith : 0 ≤ l2 + (l1 - d))]

/-! ### Target normalisation -/

theorem rotation_j_pi (u : Vector4) :
    (Matrix4.rotation Vector4.j PI).mulVec u = ⟨-u.x, u.y, -u.z, u.w⟩ := by
  simp [Matrix4.rotation, Matrix4.mulVec, Vector4.j, Vector4.mk3, PI]

theorem rotation_j_neg_pi (u : Vector4) :
    (Matrix4.rotation Vector4.j (-PI)).mulVec u = ⟨-u.x, u.y, -u.z, u.w⟩ := by
  simp [Matrix4.rotation, Matrix4.mulVec, Vector4.j, Vector4.mk3, PI]

theorem normalizeTarget_right (l : Limb) (h : l.IsRight) (T : Vector4) :
    l.normalizeTarget T = T.sub l.rootOffset := by
  simp [Limb.normalizeTarget, isLeft_of_IsRight h]

theorem normalizeTarget_left (l : Limb) (h : l.IsLeft) (T : Vector4) :
    l.normalizeTarget T =
      ⟨-(T.x - l.rootOffset.x), T.y - l.rootOffset.y, -(T.z - l.rootOffset.z),
        T.w - l.rootOffset.w⟩ := by
  simp [Limb.normalizeTarget, isLeft_of_IsLeft h, rotation_j_pi, Vector4.sub]

theorem denormalizeTarget_right (l : Limb) (h : l.IsRight) (target0 N : Vector4) :
    l.denormalizeTarget target0 N = target0.add l.rootOffset := by
  simp [Limb.denormalizeTarget, isLeft_of_IsRight h]

/-- C2 (the defect): on a right-side limb `denormalizeTarget` never reads its argument.  The
sample right-side limb has its hip at the origin; whatever the default vector `target0` is,
the normalized vectors (1, 0, 0) and (2, 0, 0) are both sent to `target0 + rootOffset`, so at
least one of them is not sent to itself plus the root offset, while `normalizeTarget` does
subtract the offset. -/
theorem denormalizeTarget_right_drops_input (target0 : Vector4) :
    sampleRight.denormalizeTarget target0 (Vector4.mk3 1 0 0) =
        target0.add sampleRight.rootOffset ∧
      sampleRight.denormalizeTarget target0 (Vector4.mk3 2 0 0) =
        target0.add sampleRight.rootOffset ∧
      ¬ (sampleRight.denormalizeTarget target0 (Vector4.mk3 1 0 0) =
            (Vector4.mk3 1 0 0).add sampleRight.rootOffset ∧
          sampleRight.denormalizeTarget target0 (Vector4.mk3 2 0 0) =
            (Vector4.mk3 2 0 0).add sampleRight.rootOffset) ∧
      sampleRight.normalizeTarget (Vector4.mk3 1 0 0) =
        (Vector4.mk3 1 0 0).sub sampleRight.rootOffset := by
  have hR : sampleRight.IsRight := Or.inl rfl
  refine ⟨denormalizeTarget_right _ hR _ _, denormalizeTarget_right _ hR _ _, ?_,
    normalizeTarget_right _ hR _⟩
  rintro ⟨h1, h2⟩
  rw [denormalizeTarget_right _ hR] at h1 h2
  have h3 := h1.symm.trans h2
  have h4 := congrArg Vector4.x h3
  norm_num [Vector4.add, Vector4.mk3] at h4

/-- C3: on a left-side limb, whatever its root offset, `denormalizeTarget` undoes
`normalizeTarget`: the rotation by `-PI` about `Vector4::j` is the inverse of the rotation by
`PI`, and the offset is added back. -/
theorem denormalize_normalize_left (l : Limb) (h : l.IsLeft) (target0 T : Vector4) :
    l.denormalizeTarget target0 (l.normalizeTarget T) = T ∧
      ∀ u : Vector4,
        (Matrix4.rotation Vector4.j (-PI)).mulVec ((Matrix4.rotation Vector4.j PI).mulVec u) =
          u := by
  constructor
  · simp [Limb.normalizeTarget, Limb.denormalizeTarget, isLeft_of_IsLeft h, rotation_j_pi,
      rotation_j_neg_pi, Vector4.sub, Vector4.add]
  · intro u
    simp [rotation_j_pi, rotation_j_neg_pi]

theorem denormalize_normalize_left_witness :
    sampleLeft.IsLeft ∧
      sampleLeft.denormalizeTarget (Vector4.mk3 0 0 0)
        (sampleLeft.normalizeTarget (Vector4.mk3 1 2 3)) = Vector4.mk3 1 2 3 :=
  ⟨Or.inl rfl,
    (denormalize_normalize_left sampleLeft (Or.inl rfl) (Vector4.mk3 0 0 0)
      (Vector4.mk3 1 2 3)).1⟩

/-- C4 (as stated, refuted): the sample left-side limb has its hip at the origin, and the
target (1, 2, 3) is normalized to (-1, 2, -3), not to (-1, -2, 3): the third component,
along the axis the hip stage rotates about, is not preserved. -/
theorem normalizeTarget_left_not_about_k :
    sampleLeft.IsLeft ∧
      sampleLeft.normalizeTarget (Vector4.mk3 1 2 3) = Vector4.mk3 (-1) 2 (-3) ∧
      sampleLeft.normalizeTarget (Vector4.mk3 1 2 3) ≠ Vector4.mk3 (-1) (-2) 3 ∧
      (sampleLeft.normalizeTarget (Vector4.mk3 1 2 3)).z ≠ (Vector4.mk3 1 2 3).z := by
  have hL : sampleLeft.IsLeft := Or.inl rfl
  have e : sampleLeft.normalizeTarget (Vector4.mk3 1 2 3) = Vector4.mk3 (-1) 2 (-3) := by
    rw [normalizeTarget_left _ hL]
    simp [sampleLeft, Limb.new, Vector4.mk3]
  refine ⟨hL, e, ?_, ?_⟩
  · rw [e]
    intro h
    have h2 := congrArg Vector4.y h
    norm_num [Vector4.mk3] at h2
  · rw [e]
    norm_num [Vector4.mk3]

/-- C4 (amended): on a left-side limb `normalizeTarget` is the offset subtraction followed by
the half-turn about `Vector4::j`, the second coordinate axis: with (x, y, z) = T - rootOffset
the result is (-x, y, -z).  The second component is preserved and the third, along the axis
`Vector4::k` that the hip stage of `calcIKAngles` rotates about, is negated. -/
theorem normalizeTarget_left_half_turn_about_j (l : Limb) (h : l.IsLeft) (T : Vector4) :
    l.normalizeTarget T = (Matrix4.rotation Vector4.j PI).mulVec (T.sub l.rootOffset) ∧
      (l.normalizeTarget T).x = -(T.sub l.rootOffset).x ∧
      (l.normalizeTarget T).y = (T.sub l.rootOffset).y ∧
      (l.normalizeTarget T).z = -(T.sub l.rootOffset).z := by
  rw [normalizeTarget_left l h]
  simp [rotation_j_pi, Vector4.sub]

theorem normalizeTarget_left_half_turn_about_j_witness :
    sampleLeft.IsLeft ∧
      (sampleLeft.normalizeTarget (Vector4.mk3 1 2 3)).z =
        -((Vector4.mk3 1 2 3).sub sampleLeft.rootOffset).z :=
  ⟨Or.inl rfl,
    (normalizeTarget_left_half_turn_about_j sampleLeft (Or.inl rfl) (Vector4.mk3 1 2 3)).2.2.2⟩

/-! ### The solve -/

/-- Whenever the hip stage yields a shoulder joint, it is `shoulderJoint`. -/
theorem calcIK_v_inv (self : Limb) (t v : Vector4) (h : self.calcIK_v t = some v) :
    v = self.shoulderJoint t := by
  have hs : sqrtf (t.x * t.x + t.y * t.y) = some (planarDist t) :=
    sqrtf_of_nonneg (planar_sq_nonneg t)
  by_cases hD : planarDist t = 0
  · simp [Limb.calcIK_v, Vector4.get, hs, hD, fdiv_zero] at h
  · by_cases hq : -1 ≤ self.l0 / planarDist t ∧ self.l0 / planarDist t ≤ 1
    · simp [Limb.calcIK_v, Vector4.get, hs, fdiv_of_ne _ hD, acosf_of_mem hq.1 hq.2] at h
      rw [← h]
      simp [Limb.shoulderJoint]
    · simp [Limb.calcIK_v, Vector4.get, hs, fdiv_of_ne _ hD, acosf, hq] at h

theorem fdiv_bind_acosf_inv {a b r : ℝ} (h : (fdiv a b).bind acosf = some r) :
    r = Real.arccos (a / b) := by
  unfold fdiv at h
  split_ifs at h with hb
  · simp at h
  · simp only [Option.some_bind, acosf] at h
    split_ifs at h
    exact (Option.some.inj h).symm

theorem calcIK_at_inv (self : Limb) (t : Vector4) (a : ℝ)
    (hv : self.calcIK_v t = some (self.shoulderJoint t)) (h : self.calcIK_at t = some a) :
    a = Real.arcsin (t.z / self.toeDist t) := by
  simp only [Limb.calcIK_at, calcIK_d_eq self t hv, Vector4.get, Option.bind_eq_bind,
    Option.some_bind, fdiv] at h
  split_ifs at h with hb
  · simp at h
  · simp only [Option.some_bind, asinf] at h
    split_ifs at h
    exact (Option.some.inj h).symm

theorem calcIK_ae_inv (self : Limb) (t : Vector4) (a : ℝ)
    (hv : self.calcIK_v t = some (self.shoulderJoint t)) (h : self.calcIK_ae t = some a) :
    a = if self.toeDist t < self.l1 + self.l2 then
        Real.arccos (0.5 * (self.l1sq + self.l2sq - self.toeDist t * self.toeDist t) /
          (self.l1 * self.l2))
      else PI := by
  by_cases hr : self.toeDist t < self.l1 + self.l2
  · rw [calcIK_ae_reach self t hv hr] at h
    rw [if_pos hr]
    exact fdiv_bind_acosf_inv h
  · rw [calcIK_ae_sat self t hv (not_lt.mp hr)] at h
    rw [if_neg hr]
    exact (Option.some.inj h).symm

theorem calcIK_a1_inv (self : Limb) (t : Vector4) (a : ℝ)
    (hv : self.calcIK_v t = some (self.shoulderJoint t)) (h : self.calcIK_a1 t = some a) :
    a = if self.toeDist t < self.l1 + self.l2 then
        Real.arccos (0.5 * (self.l1sq + self.toeDist t * self.toeDist t - self.l2sq) /
          (self.l1 * self.toeDist t))
      else 0 := by
  by_cases hr : self.toeDist t < self.l1 + self.l2
  · rw [calcIK_a1_reach self t hv hr] at h
    rw [if_pos hr]
    exact fdiv_bind_acosf_inv h
  · rw [calcIK_a1_sat self t hv (not_lt.mp hr)] at h
    rw [if_neg hr]
    exact (Option.some.inj h).symm

/-- Within reach of a triangle with sides `l1`, `l2`, `d`, the angle `ae` is defined. -/
theorem calcIK_ae_eq (self : Limb) (t : Vector4)
    (hv : self.calcIK_v t = some (self.shoulderJoint t)) (q1 : self.l1sq = self.l1 * self.l1)
    (q2 : self.l2sq = self.l2 * self.l2) (p1 : 0 < self.l1) (p2 : 0 < self.l2)
    (hlo : |self.l1 - self.l2| ≤ self.toeDist t) (hr : self.toeDist t < self.l1 + self.l2) :
    self.calcIK_ae t =
      some (Real.arccos (0.5 * (self.l1sq + self.l2sq - self.toeDist t * self.toeDist t) /
        (self.l1 * self.l2))) := by
  have hm := ae_arg_mem p1 p2 (toeDist_nonneg self t) hlo hr.le
  rw [calcIK_ae_reach self t hv hr, fdiv_of_ne _ (mul_pos p1 p2).ne', q1, q2]
  exact acosf_of_mem hm.1 hm.2

/-- Within reach of a triangle with sides `l1`, `l2`, `d > 0`, the angle `a1` is defined. -/
theorem calcIK_a1_eq (self : Limb) (t : Vector4)
    (hv : self.calcIK_v t = some (self.shoulderJoint t)) (q1 : self.l1sq = self.l1 * self.l1)
    (q2 : self.l2sq = self.l2 * self.l2) (p1 : 0 < self.l1) (hd : 0 < self.toeDist t)
    (hlo : |self.l1 - self.l2| ≤ self.toeDist t) (hr : self.toeDist t < self.l1 + self.l2) :
    self.calcIK_a1 t =
      some (Real.arccos (0.5 * (self.l1sq + self.toeDist t * self.toeDist t - self.l2sq) /
        (self.l1 * self.toeDist t))) := by
  have hm := a1_arg_mem self.l2 p1 hd hlo hr.le
  rw [calcIK_a1_reach self t hv hr, fdiv_of_ne _ (mul_pos p1 hd).ne', q1, q2]
  exact acosf_of_mem hm.1 hm.2

theorem calcIK_hip_eq (self : Limb) (t v : Vector4) (hv : self.calcIK_v t = some v) :
    self.calcIK_hip t = some (-atan2f v.y v.x) := by
  simp [Limb.calcIK_hip, hv, Vector4.get]

/-- The three stored angles when the four intermediate values are numbers. -/
theorem calcIKAngles_of_some (self : Limb) (t : Vector4) (φ aT aE a1 : ℝ)
    (hh : self.calcIK_hip t = some φ) (hat : self.calcIK_at t = some aT)
    (hae : self.calcIK_ae t = some aE) (ha1 : self.calcIK_a1 t = some a1) :
    (self.calcIKAngles t).hipAngle =
        some (if self.configuration.isLeft then φ + PI else φ * (-1) + PI) ∧
      (self.calcIKAngles t).shoulderAngle =
        some (if self.configuration.isLeft then aT + a1 - PIOver2 + PI
          else PIOver2 - (aT + a1) + PI) ∧
      (self.calcIKAngles t).elbowAngle =
        some (if self.configuration.isLeft then PI - aE + PI else aE - PI + PI) := by
  rw [calcIKAngles_eq]
  cases self.configuration.isLeft <;> simp [hh, hat, hae, ha1, fadd, fsub, fmul]

theorem planarDist_unit (z : ℝ) : planarDist (Vector4.mk3 1 0 z) = 1 := by
  simp [planarDist, Vector4.mk3]

theorem toeDist_unit (l : Limb) (hl : l.l0 = 1) (z : ℝ) (hz : 0 ≤ z) :
    l.toeDist (Vector4.mk3 1 0 z) = z := by
  have h0 : 0 < l.l0 := by rw [hl]; exact one_pos
  have h1 : l.l0 ≤ planarDist (Vector4.mk3 1 0 z) := by rw [hl, planarDist_unit]
  have h2 := toeDist_sq l _ h0 h1
  rw [hl] at h2
  apply (mul_self_inj_of_nonneg (toeDist_nonneg l _) hz).mp
  rw [h2]
  simp [Vector4.mk3]

theorem calcIK_v_unit (l : Limb) (hl : l.l0 = 1) (z : ℝ) :
    l.calcIK_v (Vector4.mk3 1 0 z) = some (l.shoulderJoint (Vector4.mk3 1 0 z)) :=
  calcIK_v_eq l _ (by rw [hl]; exact one_pos) (by rw [hl, planarDist_unit])

/-- C5: when the intermediate values `v`, `at`, `ae`, `a1` of `calcIKAngles` are numbers, they
are the shoulder joint of the hip stage, the inverse sine of z over the second-stage distance,
and the law-of-cosines angles or their saturated values; a left-side limb stores
`-atan2(v.y, v.x) + PI`, `(at + a1 - PI/2) + PI`, `(PI - ae) + PI`, and a right-side limb
stores `atan2(v.y, v.x) + PI`, `(PI/2 - (at + a1)) + PI`, `(ae - PI) + PI`. -/
theorem calcIKAngles_stores (self : Limb) (t v : Vector4) (aT aE a1 : ℝ)
    (hv : self.calcIK_v t = some v) (hat : self.calcIK_at t = some aT)
    (hae : self.calcIK_ae t = some aE) (ha1 : self.calcIK_a1 t = some a1) :
    (v = self.shoulderJoint t ∧ aT = Real.arcsin (t.z / self.toeDist t) ∧
        aE = (if self.toeDist t < self.l1 + self.l2 then
            Real.arccos (0.5 * (self.l1sq + self.l2sq - self.toeDist t * self.toeDist t) /
              (self.l1 * self.l2))
          else PI) ∧
        a1 = (if self.toeDist t < self.l1 + self.l2 then
            Real.arccos (0.5 * (self.l1sq + self.toeDist t * self.toeDist t - self.l2sq) /
              (self.l1 * self.toeDist t))
          else 0)) ∧
      (self.IsLeft →
        (self.calcIKAngles t).hipAngle = some (-atan2f v.y v.x + PI) ∧
          (self.calcIKAngles t).shoulderAngle = some ((aT + a1 - PIOver2) + PI) ∧
          (self.calcIKAngles t).elbowAngle = some ((PI - aE) + PI)) ∧
      (self.IsRight →
        (self.calcIKAngles t).hipAngle = some (atan2f v.y v.x + PI) ∧
          (self.calcIKAngles t).shoulderAngle = some ((PIOver2 - (aT + a1)) + PI) ∧
          (self.calcIKAngles t).elbowAngle = some ((aE - PI) + PI)) := by
  have ev := calcIK_v_inv self t v hv
  have hv2 := hv
  rw [ev] at hv2
  obtain ⟨a, b, c⟩ :=
    calcIKAngles_of_some self t _ _ _ _ (calcIK_hip_eq self t v hv) hat hae ha1
  refine ⟨⟨ev, calcIK_at_inv self t aT hv2 hat, calcIK_ae_inv self t aE hv2 hae,
    calcIK_a1_inv self t a1 hv2 ha1⟩, ?_, ?_⟩
  · intro hL
    rw [isLeft_of_IsLeft hL] at a b c
    exact ⟨a, b, c⟩
  · intro hR
    rw [isLeft_of_IsRight hR] at a b c
    simp only [Bool.false_eq_true, if_false] at a b c
    refine ⟨?_, b, c⟩
    rw [a]
    congr 1
    ring

theorem calcIKAngles_stores_witness :
    sampleRight.calcIK_v (Vector4.mk3 1 0 4) =
        some (sampleRight.shoulderJoint (Vector4.mk3 1 0 4)) ∧
      sampleRight.calcIK_at (Vector4.mk3 1 0 4) = some (Real.arcsin (4 / 4)) ∧
      sampleRight.calcIK_ae (Vector4.mk3 1 0 4) = some PI ∧
      sampleRight.calcIK_a1 (Vector4.mk3 1 0 4) = some 0 ∧
      (sampleRight.IsRight →
        (sampleRight.calcIKAngles (Vector4.mk3 1 0 4)).hipAngle =
            some (atan2f (sampleRight.shoulderJoint (Vector4.mk3 1 0 4)).y
              (sampleRight.shoulderJoint (Vector4.mk3 1 0 4)).x + PI) ∧
          (sampleRight.calcIKAngles (Vector4.mk3 1 0 4)).shoulderAngle =
            some ((PIOver2 - (Real.arcsin (4 / 4) + 0)) + PI) ∧
          (sampleRight.calcIKAngles (Vector4.mk3 1 0 4)).elbowAngle = some ((PI - PI) + PI)) :=
  have d4 : sampleRight.toeDist (Vector4.mk3 1 0 4) = 4 :=
    toeDist_unit _ rfl 4 (by norm_num)
  have hv := calcIK_v_unit sampleRight rfl 4
  have hs : sampleRight.l1 + sampleRight.l2 ≤ sampleRight.toeDist (Vector4.mk3 1 0 4) := by
    rw [d4]; norm_num [sampleRight, Limb.new]
  have hat : sampleRight.calcIK_at (Vector4.mk3 1 0 4) = some (Real.arcsin (4 / 4)) := by
    have h := calcIK_at_eq sampleRight (Vector4.mk3 1 0 4) one_pos
      (by rw [planarDist_unit]; exact le_of_eq rfl) (by rw [d4]; norm_num)
    rw [d4] at h
    exact h
  have hae := calcIK_ae_sat sampleRight _ hv hs
  have ha1 := calcIK_a1_sat sampleRight _ hv hs
  ⟨hv, hat, hae, ha1,
    (calcIKAngles_stores sampleRight (Vector4.mk3 1 0 4) _ _ _ _ hv hat hae ha1).2.2⟩

/-- C6: for a limb with positive link lengths and a normalized target with planar distance at
least l0 whose distance d from the shoulder joint is l1 + l2 or more, `calcIKAngles` takes
`ae = PI` and `a1 = 0`; the stored elbow angle is PI on both sides and the stored shoulder
angle is `at + PI/2` on the left side and `3*PI/2 - at` on the right side, with
`at = asin(z / d)`. -/
theorem calcIKAngles_saturated (self : Limb) (t : Vector4) (p0 : 0 < self.l0)
    (p1 : 0 < self.l1) (p2 : 0 < self.l2) (hhip : self.l0 ≤ planarDist t)
    (hsat : self.l1 + self.l2 ≤ self.toeDist t) :
    self.calcIK_ae t = some PI ∧ self.calcIK_a1 t = some 0 ∧
      (self.calcIKAngles t).elbowAngle = some PI ∧
      (self.IsLeft → (self.calcIKAngles t).shoulderAngle =
        some (Real.arcsin (t.z / self.toeDist t) + PI / 2)) ∧
      (self.IsRight → (self.calcIKAngles t).shoulderAngle =
        some (3 * PI / 2 - Real.arcsin (t.z / self.toeDist t))) := by
  have hv := calcIK_v_eq self t p0 hhip
  have hpos : 0 < self.toeDist t := lt_of_lt_of_le (add_pos p1 p2) hsat
  have hae := calcIK_ae_sat self t hv hsat
  have ha1 := calcIK_a1_sat self t hv hsat
  obtain ⟨-, b, c⟩ := calcIKAngles_of_some self t _ _ _ _ (calcIK_hip_eq self t _ hv)
    (calcIK_at_eq self t p0 hhip hpos) hae ha1
  refine ⟨hae, ha1, ?_, ?_, ?_⟩
  · rw [c]
    split_ifs <;> simp
  · intro hL
    rw [b, isLeft_of_IsLeft hL]
    simp only [if_true, PIOver2, PI]
    congr 1
    ring
  · intro hR
    rw [b, isLeft_of_IsRight hR]
    simp only [Bool.false_eq_true, if_false, PIOver2, PI]
    congr 1
    ring

theorem calcIKAngles_saturated_witness :
    0 < sampleLeft.l0 ∧ 0 < sampleLeft.l1 ∧ 0 < sampleLeft.l2 ∧
      sampleLeft.l0 ≤ planarDist (Vector4.mk3 1 0 4) ∧
      sampleLeft.l1 + sampleLeft.l2 ≤ sampleLeft.toeDist (Vector4.mk3 1 0 4) ∧
      (sampleLeft.calcIKAngles (Vector4.mk3 1 0 4)).elbowAngle = some PI :=
  have d4 : sampleLeft.toeDist (Vector4.mk3 1 0 4) = 4 :=
    toeDist_unit _ rfl 4 (by norm_num)
  have a0 : 0 < sampleLeft.l0 := by norm_num [sampleLeft, Limb.new]
  have a1 : 0 < sampleLeft.l1 := by norm_num [sampleLeft, Limb.new]
  have a2 : 0 < sampleLeft.l2 := by norm_num [sampleLeft, Limb.new]
  have a3 : sampleLeft.l0 ≤ planarDist (Vector4.mk3 1 0 4) := by
    rw [planarDist_unit]; exact le_of_eq rfl
  have a4 : sampleLeft.l1 + sampleLeft.l2 ≤ sampleLeft.toeDist (Vector4.mk3 1 0 4) := by
    rw [d4]; norm_num [sampleLeft, Limb.new]
  ⟨a0, a1, a2, a3, a4,
    (calcIKAngles_saturated sampleLeft (Vector4.mk3 1 0 4) a0 a1 a2 a3 a4).2.2.1⟩

/-- C7: a right-side limb and a left-side limb built with the same link lengths, solving the
same normalized target, store mirrored angles: each left angle is a number exactly when the
right one is, and then leftAngle = 2*PI - rightAngle, that is, the angles before the PI bias
are negations of each other. -/
theorem mirror_symmetry (cR cL : Configuration) (rR rL : Vector4) (l0 l1 l2 : ℝ)
    (hR sR eR hL sL eL : Option ℝ) (t : Vector4)
    (hcR : cR = .frontRight ∨ cR = .backRight) (hcL : cL = .frontLeft ∨ cL = .backLeft) :
    ((Limb.new cL rL l0 l1 l2 hL sL eL).calcIKAngles t).hipAngle =
        ((Limb.new cR rR l0 l1 l2 hR sR eR).calcIKAngles t).hipAngle.map
          (fun a => 2 * PI - a) ∧
      ((Limb.new cL rL l0 l1 l2 hL sL eL).calcIKAngles t).shoulderAngle =
        ((Limb.new cR rR l0 l1 l2 hR sR eR).calcIKAngles t).shoulderAngle.map
          (fun a => 2 * PI - a) ∧
      ((Limb.new cL rL l0 l1 l2 hL sL eL).calcIKAngles t).elbowAngle =
        ((Limb.new cR rR l0 l1 l2 hR sR eR).calcIKAngles t).elbowAngle.map
          (fun a => 2 * PI - a) := by
  have iL : (Limb.new cL rL l0 l1 l2 hL sL eL).configuration.isLeft = true :=
    isLeft_of_IsLeft hcL
  have iR : (Limb.new cR rR l0 l1 l2 hR sR eR).configuration.isLeft = false :=
    isLeft_of_IsRight hcR
  have eh : (Limb.new cL rL l0 l1 l2 hL sL eL).calcIK_hip t =
      (Limb.new cR rR l0 l1 l2 hR sR eR).calcIK_hip t := rfl
  have eat : (Limb.new cL rL l0 l1 l2 hL sL eL).calcIK_at t =
      (Limb.new cR rR l0 l1 l2 hR sR eR).calcIK_at t := rfl
  have eae : (Limb.new cL rL l0 l1 l2 hL sL eL).calcIK_ae t =
      (Limb.new cR rR l0 l1 l2 hR sR eR).calcIK_ae t := rfl
  have ea1 : (Limb.new cL rL l0 l1 l2 hL sL eL).calcIK_a1 t =
      (Limb.new cR rR l0 l1 l2 hR sR eR).calcIK_a1 t := rfl
  rw [calcIKAngles_eq, calcIKAngles_eq, iL, iR, eh, eat, eae, ea1]
  simp only [if_true, Bool.false_eq_true, if_false]
  refine ⟨?_, ?_, ?_⟩
  · cases (Limb.new cR rR l0 l1 l2 hR sR eR).calcIK_hip t <;> simp [fadd, fmul]
    ring
  · cases (Limb.new cR rR l0 l1 l2 hR sR eR).calcIK_at t <;>
      cases (Limb.new cR rR l0 l1 l2 hR sR eR).calcIK_a1 t <;> simp [fadd, fsub]
    ring
  · cases (Limb.new cR rR l0 l1 l2 hR sR eR).calcIK_ae t <;> simp [fadd, fsub]
    ring

theorem mirror_symmetry_witness :
    (Configuration.frontRight = .frontRight ∨ Configuration.frontRight = .backRight) ∧
      (Configuration.frontLeft = .frontLeft ∨ Configuration.frontLeft = .backLeft) ∧
      (sampleLeft.calcIKAngles (Vector4.mk3 1 0 4)).elbowAngle =
        (sampleRight.calcIKAngles (Vector4.mk3 1 0 4)).elbowAngle.map (fun a => 2 * PI - a) :=
  ⟨Or.inl rfl, Or.inl rfl,
    (mirror_symmetry .frontRight .frontLeft (Vector4.mk3 0 0 0) (Vector4.mk3 0 0 0) 1 2 2
      none none none none none none (Vector4.mk3 1 0 4) (Or.inl rfl) (Or.inl rfl)).2.2⟩

/-! ### The robot -/

theorem update_limbs (r : Robot) (i : Fin 4) :
    r.update.limbs i = (r.limbs i).calcIKAngles (r.ikTargets i) := by
  fin_cases i <;> simp [Robot.update, Robot.updateStep, Function.update]

theorem update_ikTargets (r : Robot) : r.update.ikTargets = r.ikTargets := rfl

theorem setIKTargets_limbs (r : Robot) (a b c d : Vector4) :
    (r.setIKTargets a b c d).limbs = r.limbs := rfl

theorem setIKTargets_ikTargets (r : Robot) (a b c d : Vector4) :
    (r.setIKTargets a b c d).ikTargets 0 = (r.limbs 0).normalizeTarget a ∧
      (r.setIKTargets a b c d).ikTargets 1 = (r.limbs 1).normalizeTarget b ∧
      (r.setIKTargets a b c d).ikTargets 2 = (r.limbs 2).normalizeTarget c ∧
      (r.setIKTargets a b c d).ikTargets 3 = (r.limbs 3).normalizeTarget d := by
  simp [Robot.setIKTargets, Function.update]

theorem normalize_offset_right (l : Limb) (h : l.IsRight) :
    l.normalizeTarget (l.rootOffset.add (Vector4.mk3 0 15 (-10))) = Vector4.mk3 0 15 (-10) := by
  rw [normalizeTarget_right l h]
  simp [Vector4.add, Vector4.sub, Vector4.mk3]

theorem normalize_offset_left (l : Limb) (h : l.IsLeft) :
    l.normalizeTarget (l.rootOffset.add (Vector4.mk3 0 15 (-10))) = Vector4.mk3 0 15 10 := by
  rw [normalizeTarget_left l h]
  simp [Vector4.add, Vector4.mk3]

/-- The four limbs of the end-to-end scenario after the update. -/
theorem endToEnd_limbs (r0 r1 r2 r3 : Vector4) (h0 s0 e0 : Fin 4 → Option ℝ)
    (target0 : Vector4) :
    (endToEnd r0 r1 r2 r3 h0 s0 e0 target0).limbs 0 =
        (Limb.new .frontRight r0 5 10 10 (h0 0) (s0 0) (e0 0)).calcIKAngles
          (Vector4.mk3 0 15 (-10)) ∧
      (endToEnd r0 r1 r2 r3 h0 s0 e0 target0).limbs 1 =
        (Limb.new .frontLeft r1 5 10 10 (h0 1) (s0 1) (e0 1)).calcIKAngles
          (Vector4.mk3 0 15 10) ∧
      (endToEnd r0 r1 r2 r3 h0 s0 e0 target0).limbs 2 =
        (Limb.new .backRight r2 5 10 10 (h0 2) (s0 2) (e0 2)).calcIKAngles
          (Vector4.mk3 0 15 (-10)) ∧
      (endToEnd r0 r1 r2 r3 h0 s0 e0 target0).limbs 3 =
        (Limb.new .backLeft r3 5 10 10 (h0 3) (s0 3) (e0 3)).calcIKAngles
          (Vector4.mk3 0 15 10) := by
  obtain ⟨t0, t1, t2, t3⟩ := setIKTargets_ikTargets
    (Robot.new 5 10 10 r0 r1 r2 r3 h0 s0 e0 target0)
    (r0.add (Vector4.mk3 0 15 (-10))) (r1.add (Vector4.mk3 0 15 (-10)))
    (r2.add (Vector4.mk3 0 15 (-10))) (r3.add (Vector4.mk3 0 15 (-10)))
  have n0 := normalize_offset_right (Limb.new .frontRight r0 5 10 10 (h0 0) (s0 0) (e0 0))
    (Or.inl rfl)
  have n1 := normalize_offset_left (Limb.new .frontLeft r1 5 10 10 (h0 1) (s0 1) (e0 1))
    (Or.inl rfl)
  have n2 := normalize_offset_right (Limb.new .backRight r2 5 10 10 (h0 2) (s0 2) (e0 2))
    (Or.inr rfl)
  have n3 := normalize_offset_left (Limb.new .backLeft r3 5 10 10 (h0 3) (s0 3) (e0 3))
    (Or.inr rfl)
  refine ⟨?_, ?_, ?_, ?_⟩
  · rw [endToEnd, update_limbs, t0, setIKTargets_limbs]
    exact congrArg _ n0
  · rw [endToEnd, update_limbs, t1, setIKTargets_limbs]
    exact congrArg _ n1
  · rw [endToEnd, update_limbs, t2, setIKTargets_limbs]
    exact congrArg _ n2
  · rw [endToEnd, update_limbs, t3, setIKTargets_limbs]
    exact congrArg _ n3

theorem planarDist_scenario (z : ℝ) : planarDist (Vector4.mk3 0 15 z) = 15 := by
  have h : (0 : ℝ) * 0 + 15 * 15 = 15 * 15 := by norm_num
  simp only [planarDist, Vector4.mk3, h]
  exact Real.sqrt_mul_self (by norm_num)

theorem toeDist_scenario (l : Limb) (hl : l.l0 = 5) (z : ℝ) (hz : z * z = 100) :
    l.toeDist (Vector4.mk3 0 15 z) = Real.sqrt 300 := by
  have h0 : 0 < l.l0 := by rw [hl]; norm_num
  have h1 : l.l0 ≤ planarDist (Vector4.mk3 0 15 z) := by
    rw [hl, planarDist_scenario]; norm_num
  have h2 := toeDist_sq l _ h0 h1
  have h3 : l.toeDist (Vector4.mk3 0 15 z) * l.toeDist (Vector4.mk3 0 15 z) = 300 := by
    rw [h2, hl]
    simp only [Vector4.mk3, hz]
    norm_num
  rw [← h3, Real.sqrt_mul_self (toeDist_nonneg l _)]

theorem sqrt_300_bounds : 0 < Real.sqrt 300 ∧ Real.sqrt 300 < 20 := by
  constructor
  · exact Real.sqrt_pos.mpr (by norm_num)
  · rw [Real.sqrt_lt' (by norm_num)]
    norm_num

/-- The intermediate values of the solve for a limb with link lengths 5, 10, 10 and a target
(0, 15, z) with z² = 100. -/
theorem scenario_limb (cfg : Configuration) (root : Vector4) (h s e : Option ℝ) (z : ℝ)
    (hz : z * z = 100) :
    (Limb.new cfg root 5 10 10 h s e).calcIK_hip (Vector4.mk3 0 15 z) =
        some (-atan2f
          ((Limb.new cfg root 5 10 10 h s e).shoulderJoint (Vector4.mk3 0 15 z)).y
          ((Limb.new cfg root 5 10 10 h s e).shoulderJoint (Vector4.mk3 0 15 z)).x) ∧
      (Limb.new cfg root 5 10 10 h s e).calcIK_at (Vector4.mk3 0 15 z) =
        some (Real.arcsin (z / Real.sqrt 300)) ∧
      (Limb.new cfg root 5 10 10 h s e).calcIK_ae (Vector4.mk3 0 15 z) =
        some (Real.arccos (0.5 * (10 * 10 + 10 * 10 - Real.sqrt 300 * Real.sqrt 300) /
          (10 * 10))) ∧
      (Limb.new cfg root 5 10 10 h s e).calcIK_a1 (Vector4.mk3 0 15 z) =
        some (Real.arccos (0.5 * (10 * 10 + Real.sqrt 300 * Real.sqrt 300 - 10 * 10) /
          (10 * Real.sqrt 300))) := by
  have hd := toeDist_scenario (Limb.new cfg root 5 10 10 h s e) rfl z hz
  have p0 : 0 < (Limb.new cfg root 5 10 10 h s e).l0 := by norm_num [Limb.new]
  have p1 : 0 < (Limb.new cfg root 5 10 10 h s e).l1 := by norm_num [Limb.new]
  have p2 : 0 < (Limb.new cfg root 5 10 10 h s e).l2 := by norm_num [Limb.new]
  have hhip : (Limb.new cfg root 5 10 10 h s e).l0 ≤ planarDist (Vector4.mk3 0 15 z) := by
    rw [planarDist_scenario]; norm_num [Limb.new]
  have hpos : 0 < (Limb.new cfg root 5 10 10 h s e).toeDist (Vector4.mk3 0 15 z) := by
    rw [hd]; exact sqrt_300_bounds.1
  have hlo : |(Limb.new cfg root 5 10 10 h s e).l1 - (Limb.new cfg root 5 10 10 h s e).l2| ≤
      (Limb.new cfg root 5 10 10 h s e).toeDist (Vector4.mk3 0 15 z) := by
    rw [hd]
    have : (Limb.new cfg root 5 10 10 h s e).l1 - (Limb.new cfg root 5 10 10 h s e).l2 = 0 := by
      norm_num [Limb.new]
    rw [this, abs_zero]
    exact sqrt_300_bounds.1.le
  have hr : (Limb.new cfg root 5 10 10 h s e).toeDist (Vector4.mk3 0 15 z) <
      (Limb.new cfg root 5 10 10 h s e).l1 + (Limb.new cfg root 5 10 10 h s e).l2 := by
    rw [hd]
    have : (Limb.new cfg root 5 10 10 h s e).l1 + (Limb.new cfg root 5 10 10 h s e).l2 = 20 := by
      norm_num [Limb.new]
    rw [this]
    exact sqrt_300_bounds.2
  have hv := calcIK_v_eq _ _ p0 hhip
  have hat := calcIK_at_eq _ _ p0 hhip hpos
  have hae := calcIK_ae_eq _ _ hv rfl rfl p1 p2 hlo hr
  have ha1 := calcIK_a1_eq _ _ hv rfl rfl p1 hpos hlo hr
  rw [hd] at hat hae ha1
  exact ⟨calcIK_hip_eq _ _ _ hv, hat, hae, ha1⟩

/-- The stored angles of a right-side and a left-side limb of the end-to-end scenario. -/
theorem scenario_pair (cR cL : Configuration) (rR rL : Vector4)
    (hR sR eR hL sL eL : Option ℝ) (hcR : cR = .frontRight ∨ cR = .backRight)
    (hcL : cL = .frontLeft ∨ cL = .backLeft) :
    ∃ φ A1 AE : ℝ,
      ((Limb.new cR rR 5 10 10 hR sR eR).calcIKAngles (Vector4.mk3 0 15 (-10))).hipAngle =
          some (φ * (-1) + PI) ∧
        ((Limb.new cR rR 5 10 10 hR sR eR).calcIKAngles
            (Vector4.mk3 0 15 (-10))).shoulderAngle =
          some (PIOver2 - (-Real.arcsin (10 / Real.sqrt 300) + A1) + PI) ∧
        ((Limb.new cR rR 5 10 10 hR sR eR).calcIKAngles (Vector4.mk3 0 15 (-10))).elbowAngle =
          some (AE - PI + PI) ∧
        ((Limb.new cL rL 5 10 10 hL sL eL).calcIKAngles (Vector4.mk3 0 15 10)).hipAngle =
          some (φ + PI) ∧
        ((Limb.new cL rL 5 10 10 hL sL eL).calcIKAngles (Vector4.mk3 0 15 10)).shoulderAngle =
          some (Real.arcsin (10 / Real.sqrt 300) + A1 - PIOver2 + PI) ∧
        ((Limb.new cL rL 5 10 10 hL sL eL).calcIKAngles (Vector4.mk3 0 15 10)).elbowAngle =
          some (PI - AE + PI) := by
  obtain ⟨a1, a2, a3, a4⟩ := scenario_limb cR rR hR sR eR (-10) (by norm_num)
  obtain ⟨b1, b2, b3, b4⟩ := scenario_limb cL rL hL sL eL 10 (by norm_num)
  obtain ⟨x1, x2, x3⟩ := calcIKAngles_of_some _ _ _ _ _ _ a1 a2 a3 a4
  obtain ⟨y1, y2, y3⟩ := calcIKAngles_of_some _ _ _ _ _ _ b1 b2 b3 b4
  have iL : (Limb.new cL rL 5 10 10 hL sL eL).configuration.isLeft = true :=
    isLeft_of_IsLeft hcL
  have iR : (Limb.new cR rR 5 10 10 hR sR eR).configuration.isLeft = false :=
    isLeft_of_IsRight hcR
  rw [iR] at x1 x2 x3
  rw [iL] at y1 y2 y3
  simp only [Bool.false_eq_true, if_false, neg_div, Real.arcsin_neg] at x1 x2 x3
  simp only [if_true] at y1 y2 y3
  exact ⟨_, _, _, x1, x2, x3, y1, y2, y3⟩

theorem scenario_tilt_pos : 0 < Real.arcsin (10 / Real.sqrt 300) :=
  Real.arcsin_pos.mpr (div_pos (by norm_num) sqrt_300_bounds.1)

/-- C8 (as stated, refuted): in the end-to-end scenario with root offsets at the body corners
the shoulder angles of the front-left and the front-right limb are numbers that do not sum
to 2*PI. -/
theorem endToEnd_shoulders_not_mirrored :
    ∃ sL sR : ℝ, (endToEndSample.limbs 1).shoulderAngle = some sL ∧
      (endToEndSample.limbs 0).shoulderAngle = some sR ∧ sL + sR ≠ 2 * PI := by
  obtain ⟨e0, e1, -, -⟩ := endToEnd_limbs (Vector4.mk3 3 2 0) (Vector4.mk3 3 (-2) 0)
    (Vector4.mk3 (-3) 2 0) (Vector4.mk3 (-3) (-2) 0) (fun _ => none) (fun _ => none)
    (fun _ => none) (Vector4.mk3 0 0 0)
  obtain ⟨φ, A1, AE, -, x2, -, -, y2, -⟩ := scenario_pair .frontRight .frontLeft
    (Vector4.mk3 3 2 0) (Vector4.mk3 3 (-2) 0) none none none none none none (Or.inl rfl)
    (Or.inl rfl)
  refine ⟨Real.arcsin (10 / Real.sqrt 300) + A1 - PIOver2 + PI,
    PIOver2 - (-Real.arcsin (10 / Real.sqrt 300) + A1) + PI, ?_, ?_, ?_⟩
  · rw [endToEndSample, e1]
    exact y2
  · rw [endToEndSample, e0]
    exact x2
  · have h := scenario_tilt_pos
    intro hsum
    simp only [PIOver2, PI] at hsum
    linarith

/-- C8 (amended): in the end-to-end scenario, for any four root offsets, all twelve angles
after the update are numbers; for a left limb and the right limb of the same end the hip
angles sum to 2*PI, and so do the elbow angles; the shoulder angles sum to
2*PI + 2*asin(10 / sqrt 300), the left targets being normalized to (0, 15, 10) and the
right ones to (0, 15, -10). -/
theorem endToEnd_angles (r0 r1 r2 r3 : Vector4) (h0 s0 e0 : Fin 4 → Option ℝ)
    (target0 : Vector4) :
    (∃ hR sR eR hL sL eL : ℝ,
        ((endToEnd r0 r1 r2 r3 h0 s0 e0 target0).limbs 0).hipAngle = some hR ∧
        ((endToEnd r0 r1 r2 r3 h0 s0 e0 target0).limbs 0).shoulderAngle = some sR ∧
        ((endToEnd r0 r1 r2 r3 h0 s0 e0 target0).limbs 0).elbowAngle = some eR ∧
        ((endToEnd r0 r1 r2 r3 h0 s0 e0 target0).limbs 1).hipAngle = some hL ∧
        ((endToEnd r0 r1 r2 r3 h0 s0 e0 target0).limbs 1).shoulderAngle = some sL ∧
        ((endToEnd r0 r1 r2 r3 h0 s0 e0 target0).limbs 1).elbowAngle = some eL ∧
        hL + hR = 2 * PI ∧ eL + eR = 2 * PI ∧
        sL + sR = 2 * PI + 2 * Real.arcsin (10 / Real.sqrt 300)) ∧
      (∃ hR sR eR hL sL eL : ℝ,
        ((endToEnd r0 r1 r2 r3 h0 s0 e0 target0).limbs 2).hipAngle = some hR ∧
        ((endToEnd r0 r1 r2 r3 h0 s0 e0 target0).limbs 2).shoulderAngle = some sR ∧
        ((endToEnd r0 r1 r2 r3 h0 s0 e0 target0).limbs 2).elbowAngle = some eR ∧
        ((endToEnd r0 r1 r2 r3 h0 s0 e0 target0).limbs 3).hipAngle = some hL ∧
        ((endToEnd r0 r1 r2 r3 h0 s0 e0 target0).limbs 3).shoulderAngle = some sL ∧
        ((endToEnd r0 r1 r2 r3 h0 s0 e0 target0).limbs 3).elbowAngle = some eL ∧
        hL + hR = 2 * PI ∧ eL + eR = 2 * PI ∧
        sL + sR = 2 * PI + 2 * Real.arcsin (10 / Real.sqrt 300)) := by
  obtain ⟨e0', e1', e2', e3'⟩ := endToEnd_limbs r0 r1 r2 r3 h0 s0 e0 target0
  constructor
  · obtain ⟨φ, A1, AE, x1, x2, x3, y1, y2, y3⟩ := scenario_pair .frontRight .frontLeft r0 r1
      (h0 0) (s0 0) (e0 0) (h0 1) (s0 1) (e0 1) (Or.inl rfl) (Or.inl rfl)
    rw [e0', e1']
    refine ⟨_, _, _, _, _, _, x1, x2, x3, y1, y2, y3, ?_, ?_, ?_⟩
    · ring
    · ring
    · simp only [PIOver2, PI]
      ring
  · obtain ⟨φ, A1, AE, x1, x2, x3, y1, y2, y3⟩ := scenario_pair .backRight .backLeft r2 r3
      (h0 2) (s0 2) (e0 2) (h0 3) (s0 3) (e0 3) (Or.inr rfl) (Or.inr rfl)
    rw [e2', e3']
    refine ⟨_, _, _, _, _, _, x1, x2, x3, y1, y2, y3, ?_, ?_, ?_⟩
    · ring
    · ring
    · simp only [PIOver2, PI]
      ring

/-! ### The robot operations -/

theorem calcIKAngles_set (l : Limb) (i : Int) (a : Option ℝ) (t : Vector4) :
    (l.set i a).calcIKAngles t = l.calcIKAngles t := by
  unfold Limb.set
  split <;> rfl

/-- The solve leaves the geometry of the limb alone. -/
theorem calcIKAngles_geometry (l : Limb) (t : Vector4) :
    (l.calcIKAngles t).configuration = l.configuration ∧
      (l.calcIKAngles t).rootOffset = l.rootOffset ∧
      (l.calcIKAngles t).l0 = l.l0 ∧ (l.calcIKAngles t).l0sq = l.l0sq ∧
      (l.calcIKAngles t).l1 = l.l1 ∧ (l.calcIKAngles t).l1sq = l.l1sq ∧
      (l.calcIKAngles t).l2 = l.l2 ∧ (l.calcIKAngles t).l2sq = l.l2sq := by
  rw [calcIKAngles_eq]
  cases l.configuration.isLeft <;> exact ⟨rfl, rfl, rfl, rfl, rfl, rfl, rfl, rfl⟩

/-- The solve reads the geometry of the limb only, not its angles. -/
theorem calcIKAngles_congr (l l' : Limb) (t : Vector4)
    (hc : l.configuration = l'.configuration) (hr : l.rootOffset = l'.rootOffset)
    (h0 : l.l0 = l'.l0) (q0 : l.l0sq = l'.l0sq) (h1 : l.l1 = l'.l1) (q1 : l.l1sq = l'.l1sq)
    (h2 : l.l2 = l'.l2) (q2 : l.l2sq = l'.l2sq) : l.calcIKAngles t = l'.calcIKAngles t := by
  obtain ⟨c, r, a0, b0, a1, b1, a2, b2, h, s, e⟩ := l
  obtain ⟨c', r', a0', b0', a1', b1', a2', b2', h', s', e'⟩ := l'
  simp only at hc hr h0 q0 h1 q1 h2 q2
  subst hc hr h0 q0 h1 q1 h2 q2
  rfl

theorem calcIKAngles_idem (l : Limb) (t : Vector4) :
    (l.calcIKAngles t).calcIKAngles t = l.calcIKAngles t := by
  obtain ⟨hc, hr, h0, q0, h1, q1, h2, q2⟩ := calcIKAngles_geometry l t
  exact calcIKAngles_congr _ _ t hc hr h0 q0 h1 q1 h2 q2

theorem robot_ext {r r' : Robot} (hl : ∀ i, r.limbs i = r'.limbs i)
    (ht : r.ikTargets = r'.ikTargets) : r = r' := by
  obtain ⟨l, t⟩ := r
  obtain ⟨l', t'⟩ := r'
  have e : l = l' := funext hl
  simp only at ht
  rw [e, ht]

theorem setAngles_limbs (r : Robot) (h s e : Vector4) (i : Fin 4) :
    (r.setAngles h s e).limbs i =
      (((r.limbs i).set 0 (some (h.get i))).set 1 (some (s.get i))).set 2 (some (e.get i)) := by
  fin_cases i <;> simp [Robot.setAngles, Robot.setAnglesStep, Function.update]
  rfl

theorem setAngles_ikTargets (r : Robot) (h s e : Vector4) :
    (r.setAngles h s e).ikTargets = r.ikTargets := rfl

/-- C11: `setAngles` followed by `update` gives the same robot as `update` alone; in
particular the twelve angles are those of `update` alone, each limb holding the solve of its
stored target, whatever angles were set. -/
theorem setAngles_then_update (r : Robot) (h s e : Vector4) :
    (r.setAngles h s e).update = r.update ∧
      ∀ i : Fin 4,
        ((r.setAngles h s e).update.limbs i).hipAngle = (r.update.limbs i).hipAngle ∧
        ((r.setAngles h s e).update.limbs i).shoulderAngle =
          (r.update.limbs i).shoulderAngle ∧
        ((r.setAngles h s e).update.limbs i).elbowAngle = (r.update.limbs i).elbowAngle ∧
        (r.setAngles h s e).update.limbs i = (r.limbs i).calcIKAngles (r.ikTargets i) := by
  have key : ∀ i : Fin 4,
      (r.setAngles h s e).update.limbs i = (r.limbs i).calcIKAngles (r.ikTargets i) := by
    intro i
    rw [update_limbs, setAngles_limbs, setAngles_ikTargets, calcIKAngles_set, calcIKAngles_set,
      calcIKAngles_set]
  have e1 : (r.setAngles h s e).update = r.update := by
    apply robot_ext
    · intro i
      rw [key i, update_limbs]
    · rw [update_ikTargets, update_ikTargets, setAngles_ikTargets]
  refine ⟨e1, fun i => ?_⟩
  rw [e1]
  exact ⟨rfl, rfl, rfl, update_limbs r i⟩

/-- C12: `update` is idempotent on the whole state: a second update leaves the twelve angles,
the four stored targets and the limb geometry as the first one left them. -/
theorem update_idempotent (r : Robot) :
    r.update.update = r.update ∧ r.update.ikTargets = r.ikTargets ∧
      ∀ i : Fin 4,
        (r.update.limbs i).configuration = (r.limbs i).configuration ∧
        (r.update.limbs i).rootOffset = (r.limbs i).rootOffset ∧
        (r.update.limbs i).l0 = (r.limbs i).l0 ∧ (r.update.limbs i).l1 = (r.limbs i).l1 ∧
        (r.update.limbs i).l2 = (r.limbs i).l2 := by
  refine ⟨?_, update_ikTargets r, fun i => ?_⟩
  · apply robot_ext
    · intro i
      rw [update_limbs, update_limbs, update_ikTargets, calcIKAngles_idem]
    · rw [update_ikTargets]
  · rw [update_limbs]
    obtain ⟨hc, hr, h0, -, h1, -, h2, -⟩ := calcIKAngles_geometry (r.limbs i) (r.ikTargets i)
    exact ⟨hc, hr, h0, h1, h2⟩

/-- C13: after `setIKTargets(t0, t1, t2, t3)` the stored target of limb `i` is
`limbs[i].normalizeTarget(ti)`, and the limbs are as before: no field of a limb changes, so
the twelve angles keep their values. -/
theorem setIKTargets_effect (r : Robot) (t0 t1 t2 t3 : Vector4) :
    (r.setIKTargets t0 t1 t2 t3).ikTargets 0 = (r.limbs 0).normalizeTarget t0 ∧
      (r.setIKTargets t0 t1 t2 t3).ikTargets 1 = (r.limbs 1).normalizeTarget t1 ∧
      (r.setIKTargets t0 t1 t2 t3).ikTargets 2 = (r.limbs 2).normalizeTarget t2 ∧
      (r.setIKTargets t0 t1 t2 t3).ikTargets 3 = (r.limbs 3).normalizeTarget t3 ∧
      (r.setIKTargets t0 t1 t2 t3).limbs = r.limbs ∧
      ∀ i : Fin 4,
        ((r.setIKTargets t0 t1 t2 t3).limbs i).hipAngle = (r.limbs i).hipAngle ∧
        ((r.setIKTargets t0 t1 t2 t3).limbs i).shoulderAngle = (r.limbs i).shoulderAngle ∧
        ((r.setIKTargets t0 t1 t2 t3).limbs i).elbowAngle = (r.limbs i).elbowAngle := by
  obtain ⟨a, b, c, d⟩ := setIKTargets_ikTargets r t0 t1 t2 t3
  exact ⟨a, b, c, d, rfl, fun _ => ⟨rfl, rfl, rfl⟩⟩

/-- C14: after `setAngles(h, s, e)` limb `i` has hipAngle = h[i], shoulderAngle = s[i] and
elbowAngle = e[i]; the stored targets and the configuration, root offset, link lengths and
cached squares of every limb are unchanged. -/
theorem setAngles_effect (r : Robot) (h s e : Vector4) :
    (r.setAngles h s e).ikTargets = r.ikTargets ∧
      ∀ i : Fin 4,
        ((r.setAngles h s e).limbs i).hipAngle = some (h.get i) ∧
        ((r.setAngles h s e).limbs i).shoulderAngle = some (s.get i) ∧
        ((r.setAngles h s e).limbs i).elbowAngle = some (e.get i) ∧
        ((r.setAngles h s e).limbs i).configuration = (r.limbs i).configuration ∧
        ((r.setAngles h s e).limbs i).rootOffset = (r.limbs i).rootOffset ∧
        ((r.setAngles h s e).limbs i).l0 = (r.limbs i).l0 ∧
        ((r.setAngles h s e).limbs i).l1 = (r.limbs i).l1 ∧
        ((r.setAngles h s e).limbs i).l2 = (r.limbs i).l2 ∧
        ((r.setAngles h s e).limbs i).l0sq = (r.limbs i).l0sq ∧
        ((r.setAngles h s e).limbs i).l1sq = (r.limbs i).l1sq ∧
        ((r.setAngles h s e).limbs i).l2sq = (r.limbs i).l2sq := by
  refine ⟨rfl, fun i => ?_⟩
  rw [setAngles_limbs]
  exact ⟨rfl, rfl, rfl, rfl, rfl, rfl, rfl, rfl, rfl, rfl, rfl⟩

theorem limb_get_other (l : Limb) (i : Int) (h0 : i ≠ 0) (h1 : i ≠ 1) :
    l.get i = l.elbowAngle := by
  unfold Limb.get
  split
  · exact absurd rfl h0
  · exact absurd rfl h1
  · rfl

theorem limb_set_other (l : Limb) (i : Int) (x : Option ℝ) (h0 : i ≠ 0) (h1 : i ≠ 1) :
    l.set i x = { l with elbowAngle := x } := by
  unfold Limb.set
  split
  · exact absurd rfl h0
  · exact absurd rfl h1
  · rfl

/-- C15: indexed access on a limb reads and writes hipAngle at index 0, shoulderAngle at
index 1 and elbowAngle at index 2: a write through one of these indices is read back at the
same index and leaves the other two angles alone; at every other index (negative, or 3 and
above) both accessors address elbowAngle, as index 2 does. -/
theorem indexed_angle_access (l : Limb) (x : Option ℝ) (i : Int) (hi : i < 0 ∨ 3 ≤ i) :
    (l.get 0 = l.hipAngle ∧ l.get 1 = l.shoulderAngle ∧ l.get 2 = l.elbowAngle) ∧
      ((l.set 0 x).get 0 = x ∧ (l.set 0 x).get 1 = l.get 1 ∧ (l.set 0 x).get 2 = l.get 2) ∧
      ((l.set 1 x).get 1 = x ∧ (l.set 1 x).get 0 = l.get 0 ∧ (l.set 1 x).get 2 = l.get 2) ∧
      ((l.set 2 x).get 2 = x ∧ (l.set 2 x).get 0 = l.get 0 ∧ (l.set 2 x).get 1 = l.get 1) ∧
      (l.get i = l.elbowAngle ∧ l.get i = l.get 2 ∧ l.set i x = l.set 2 x ∧
        (l.set i x).elbowAngle = x ∧ (l.set i x).hipAngle = l.hipAngle ∧
        (l.set i x).shoulderAngle = l.shoulderAngle) := by
  have h0 : i ≠ 0 := by omega
  have h1 : i ≠ 1 := by omega
  refine ⟨⟨rfl, rfl, rfl⟩, ⟨rfl, rfl, rfl⟩, ⟨rfl, rfl, rfl⟩, ⟨rfl, rfl, rfl⟩, ?_⟩
  rw [limb_get_other l i h0 h1, limb_set_other l i x h0 h1]
  exact ⟨rfl, rfl, rfl, rfl, rfl, rfl⟩

theorem indexed_angle_access_witness :
    ((-1 : Int) < 0 ∨ (3 : Int) ≤ -1) ∧
      sampleRight.get (-1) = sampleRight.elbowAngle ∧
      (sampleRight.set (-1) (some 1)).elbowAngle = some 1 ∧
      (sampleRight.set 0 (some 1)).get 0 = some 1 :=
  have h := indexed_angle_access sampleRight (some 1) (-1) (Or.inl (by decide))
  ⟨Or.inl (by decide), h.2.2.2.2.1, h.2.2.2.2.2.2.2.1, h.2.1.1⟩

/-! ### The hip stage -/

/-- Below the exclusion radius the hip stage yields no shoulder joint. -/
theorem calcIK_v_none (self : Limb) (t : Vector4)
    (h : planarDist t < self.l0) : self.calcIK_v t = none := by
  have hs : sqrtf (t.x * t.x + t.y * t.y) = some (planarDist t) :=
    sqrtf_of_nonneg (planar_sq_nonneg t)
  by_cases hD : planarDist t = 0
  · simp [Limb.calcIK_v, Vector4.get, hs, hD, fdiv_zero]
  · have hpos : 0 < planarDist t := lt_of_le_of_ne (Real.sqrt_nonneg _) (Ne.symm hD)
    have hq : 1 < self.l0 / planarDist t := (one_lt_div hpos).mpr h
    simp [Limb.calcIK_v, Vector4.get, hs, fdiv_of_ne _ hD, acosf_of_gt hq]

/-- The stored hip angle is a number exactly when the hip stage yields a shoulder joint. -/
theorem hipAngle_eq_none_iff (self : Limb) (t : Vector4) :
    (self.calcIKAngles t).hipAngle = none ↔ self.calcIK_v t = none := by
  rw [calcIKAngles_eq]
  cases self.configuration.isLeft <;> cases h : self.calcIK_v t <;>
    simp [Limb.calcIK_hip, h, fadd, fmul]

/-- C16: for a limb with l0 > 0 the stored hip angle is undefined exactly when the planar
distance d of the target is below l0: there `l0 / d` is a division by zero (d = 0) or a
quotient above 1 that `acosf` receives unchecked, and the hip stage yields no shoulder
joint; for d ≥ l0 the quotient lies in (0, 1]. -/
theorem hip_stage_unguarded (self : Limb) (t : Vector4) (p0 : 0 < self.l0) :
    ((self.calcIKAngles t).hipAngle = none ↔ planarDist t < self.l0) ∧
      (planarDist t < self.l0 →
        self.calcIK_v t = none ∧
          ((planarDist t = 0 ∧ fdiv self.l0 (planarDist t) = none) ∨
            (fdiv self.l0 (planarDist t) = some (self.l0 / planarDist t) ∧
              1 < self.l0 / planarDist t ∧ acosf (self.l0 / planarDist t) = none))) ∧
      (self.l0 ≤ planarDist t →
        0 < self.l0 / planarDist t ∧ self.l0 / planarDist t ≤ 1 ∧
          acosf (self.l0 / planarDist t) = some (Real.arccos (self.l0 / planarDist t))) := by
  refine ⟨?_, ?_, ?_⟩
  · rw [hipAngle_eq_none_iff]
    constructor
    · intro hn
      by_contra hlt
      rw [calcIK_v_eq self t p0 (not_lt.mp hlt)] at hn
      exact Option.some_ne_none _ hn
    · exact calcIK_v_none self t
  · intro h
    refine ⟨calcIK_v_none self t h, ?_⟩
    by_cases hD : planarDist t = 0
    · left
      exact ⟨hD, by rw [hD]; exact fdiv_zero _⟩
    · right
      have hpos : 0 < planarDist t := lt_of_le_of_ne (Real.sqrt_nonneg _) (Ne.symm hD)
      have hq : 1 < self.l0 / planarDist t := (one_lt_div hpos).mpr h
      exact ⟨fdiv_of_ne _ hD, hq, acosf_of_gt hq⟩
  · intro h
    have hpos : 0 < planarDist t := lt_of_lt_of_le p0 h
    have hq0 : 0 < self.l0 / planarDist t := div_pos p0 hpos
    have hq1 : self.l0 / planarDist t ≤ 1 := (div_le_one hpos).mpr h
    exact ⟨hq0, hq1, acosf_of_mem (by linarith) hq1⟩

theorem hip_stage_unguarded_witness :
    0 < sampleRight.l0 ∧ planarDist (Vector4.mk3 0 0 0) < sampleRight.l0 ∧
      (sampleRight.calcIKAngles (Vector4.mk3 0 0 0)).hipAngle = none :=
  have p0 : 0 < sampleRight.l0 := by norm_num [sampleRight, Limb.new]
  have hd : planarDist (Vector4.mk3 0 0 0) < sampleRight.l0 := by
    norm_num [planarDist, Vector4.mk3, sampleRight, Limb.new]
  ⟨p0, hd, (hip_stage_unguarded sampleRight (Vector4.mk3 0 0 0) p0).1.mpr hd⟩

theorem norm_algebra (a b c s l : ℝ) (hab : a * a + b * b = 1) (hcs : s ^ 2 + c ^ 2 = 1) :
    (c * a + -s * b) * l * ((c * a + -s * b) * l) + (s * a + c * b) * l * ((s * a + c * b) * l) =
      l * l := by
  linear_combination (l ^ 2 * (c ^ 2 + s ^ 2)) * hab + l ^ 2 * hcs

/-- The shoulder joint lies in the x, y plane at distance `l0` from the hip. -/
theorem shoulderJoint_norm (self : Limb) (t : Vector4) (h0 : 0 < self.l0)
    (h1 : self.l0 ≤ planarDist t) :
    (self.shoulderJoint t).z = 0 ∧
      (self.shoulderJoint t).dot (self.shoulderJoint t) = self.l0 * self.l0 := by
  have hd : 0 < planarDist t := lt_of_lt_of_le h0 h1
  have hcs := Real.sin_sq_add_cos_sq (Real.arccos (self.l0 / planarDist t))
  have hD := planarDist_sq t
  have hab : t.x / planarDist t * (t.x / planarDist t) +
      t.y / planarDist t * (t.y / planarDist t) = 1 := by
    field_simp
    linarith
  have key := norm_algebra (t.x / planarDist t) (t.y / planarDist t) _ _ self.l0 hab hcs
  constructor
  · simp [Limb.shoulderJoint, Matrix4.rotation, Matrix4.mulVec, Vector4.k, Vector4.mk3,
      Vector4.smul]
  · rw [← key]
    simp only [Limb.shoulderJoint, Matrix4.rotation, Matrix4.mulVec, Vector4.k, Vector4.mk3,
      Vector4.smul, Vector4.dot]
    simp only [mul_one_div]
    ring

/-- The shoulder joint is perpendicular to the vector from it to the target. -/
theorem shoulderJoint_perp (self : Limb) (t : Vector4) (h0 : 0 < self.l0)
    (h1 : self.l0 ≤ planarDist t) :
    (self.shoulderJoint t).x * (t.x - (self.shoulderJoint t).x) +
      (self.shoulderJoint t).y * (t.y - (self.shoulderJoint t).y) = 0 := by
  obtain ⟨hz, hn⟩ := shoulderJoint_norm self t h0 h1
  have hdsq := shoulderJoint_dsq self t h0 h1
  simp only [Vector4.dot, Vector4.sub] at hn hdsq
  rw [hz] at hn hdsq
  linear_combination (-1 / 2 : ℝ) * hdsq - (1 / 2 : ℝ) * hn

/-- C18: for a limb with positive link lengths and a target with planar distance at least
l0, the shoulder joint v of the hip stage has length l0, lies in the x, y plane and is
perpendicular to the horizontal part of target - v; the squared distance of the second stage
is x² + y² + z² - l0²; that distance is zero exactly when z = 0 and the planar distance is
l0; and the test `l1 + l2 > d` holds exactly when x² + y² + z² < (l1 + l2)² + l0². -/
theorem tangent_point (self : Limb) (t : Vector4) (p0 : 0 < self.l0) (p1 : 0 < self.l1)
    (p2 : 0 < self.l2) (hhip : self.l0 ≤ planarDist t) :
    self.calcIK_v t = some (self.shoulderJoint t) ∧
      (self.shoulderJoint t).dot (self.shoulderJoint t) = self.l0 * self.l0 ∧
      Real.sqrt ((self.shoulderJoint t).dot (self.shoulderJoint t)) = self.l0 ∧
      (self.shoulderJoint t).z = 0 ∧
      (self.shoulderJoint t).x * (t.x - (self.shoulderJoint t).x) +
        (self.shoulderJoint t).y * (t.y - (self.shoulderJoint t).y) = 0 ∧
      self.calcIK_dsq t = some (t.x * t.x + t.y * t.y + t.z * t.z - self.l0 * self.l0) ∧
      (self.calcIK_d t = some 0 ↔ t.z = 0 ∧ planarDist t = self.l0) ∧
      (fgt (self.l1 + self.l2) (self.calcIK_d t) = true ↔
        t.x * t.x + t.y * t.y + t.z * t.z <
          (self.l1 + self.l2) * (self.l1 + self.l2) + self.l0 * self.l0) := by
  have hv := calcIK_v_eq self t p0 hhip
  obtain ⟨hz, hn⟩ := shoulderJoint_norm self t p0 hhip
  have hsq := toeDist_sq self t p0 hhip
  have hD := planarDist_sq t
  have hd0 := toeDist_nonneg self t
  have hDpos : 0 < planarDist t := lt_of_lt_of_le p0 hhip
  refine ⟨hv, hn, ?_, hz, shoulderJoint_perp self t p0 hhip, ?_, ?_, ?_⟩
  · rw [hn, Real.sqrt_mul_self p0.le]
  · rw [calcIK_dsq_eq self t hv, hsq]
  · rw [calcIK_d_eq self t hv]
    constructor
    · intro h
      have h0 : self.toeDist t = 0 := Option.some.inj h
      rw [h0] at hsq
      have hge : self.l0 * self.l0 ≤ planarDist t * planarDist t :=
        mul_self_le_mul_self p0.le hhip
      have hzz : t.z * t.z = 0 := by nlinarith [mul_self_nonneg t.z]
      have hDl : planarDist t * planarDist t = self.l0 * self.l0 := by nlinarith
      exact ⟨mul_self_eq_zero.mp hzz, (mul_self_inj_of_nonneg hDpos.le p0.le).mp hDl⟩
    · rintro ⟨h1, h2⟩
      have h0 : self.toeDist t * self.toeDist t = 0 := by
        rw [hsq, ← hD, h1, h2]
        ring
      rw [mul_self_eq_zero.mp h0]
  · rw [calcIK_d_eq self t hv]
    simp only [fgt, gt_iff_lt, decide_eq_true_eq]
    have hs : (0 : ℝ) ≤ self.l1 + self.l2 := (add_pos p1 p2).le
    rw [mul_self_lt_mul_self_iff hd0 hs, hsq]
    constructor <;> intro h <;> linarith

theorem tangent_point_witness :
    0 < sampleRight.l0 ∧ 0 < sampleRight.l1 ∧ 0 < sampleRight.l2 ∧
      sampleRight.l0 ≤ planarDist (Vector4.mk3 1 0 1) ∧
      sampleRight.calcIK_dsq (Vector4.mk3 1 0 1) =
        some ((Vector4.mk3 1 0 1).x * (Vector4.mk3 1 0 1).x +
          (Vector4.mk3 1 0 1).y * (Vector4.mk3 1 0 1).y +
          (Vector4.mk3 1 0 1).z * (Vector4.mk3 1 0 1).z - sampleRight.l0 * sampleRight.l0) :=
  have a0 : 0 < sampleRight.l0 := by norm_num [sampleRight, Limb.new]
  have a1 : 0 < sampleRight.l1 := by norm_num [sampleRight, Limb.new]
  have a2 : 0 < sampleRight.l2 := by norm_num [sampleRight, Limb.new]
  have a3 : sampleRight.l0 ≤ planarDist (Vector4.mk3 1 0 1) := by
    rw [planarDist_unit]; exact le_of_eq rfl
  ⟨a0, a1, a2, a3, (tangent_point sampleRight (Vector4.mk3 1 0 1) a0 a1 a2 a3).2.2.2.2.2.1⟩

/-! ### Continuity at the reach boundary -/

/-- At d = l1 + l2 the two law-of-cosines quotients are -1 and 1. -/
theorem boundary_quotients (l1 l2 : ℝ) (p1 : 0 < l1) (p2 : 0 < l2) :
    (l1 ^ 2 + l2 ^ 2 - (l1 + l2) ^ 2) / (2 * l1 * l2) = -1 ∧
      (l1 ^ 2 + (l1 + l2) ^ 2 - l2 ^ 2) / (2 * l1 * (l1 + l2)) = 1 ∧
      0.5 * (l1 * l1 + l2 * l2 - (l1 + l2) * (l1 + l2)) / (l1 * l2) = -1 ∧
      0.5 * (l1 * l1 + (l1 + l2) * (l1 + l2) - l2 * l2) / (l1 * (l1 + l2)) = 1 := by
  have n1 : l1 ≠ 0 := p1.ne'
  have n2 : l2 ≠ 0 := p2.ne'
  have n3 : l1 + l2 ≠ 0 := (add_pos p1 p2).ne'
  refine ⟨?_, ?_, ?_, ?_⟩ <;> field_simp <;> ring

/-- At d = l1 + l2 the unsaturated expressions of `calcIKAngles` evaluate to PI and 0. -/
theorem boundary_values (l1 l2 : ℝ) (p1 : 0 < l1) (p2 : 0 < l2) :
    (fdiv (0.5 * (l1 * l1 + l2 * l2 - (l1 + l2) * (l1 + l2))) (l1 * l2)).bind acosf =
        some PI ∧
      (fdiv (0.5 * (l1 * l1 + (l1 + l2) * (l1 + l2) - l2 * l2)) (l1 * (l1 + l2))).bind acosf =
        some 0 := by
  obtain ⟨-, -, r3, r4⟩ := boundary_quotients l1 l2 p1 p2
  constructor
  · rw [fdiv_of_ne _ (mul_pos p1 p2).ne', Option.some_bind, r3,
      acosf_of_mem (le_refl _) (by norm_num), Real.arccos_neg_one, PI]
  · rw [fdiv_of_ne _ (mul_pos p1 (add_pos p1 p2)).ne', Option.some_bind, r4,
      acosf_of_mem (by norm_num) (le_refl _), Real.arccos_one]

/-- C20: for l1, l2 > 0 and d = l1 + l2 the law-of-cosines quotients are -1 and 1, so the
unsaturated formulas, also as `calcIKAngles` writes them, evaluate to PI and 0; and at every
target whose second-stage distance is l1 + l2 the test `l1 + l2 > d` is false and
`calcIKAngles` takes these same values for `ae` and `a1`. -/
theorem saturation_continuous (cfg : Configuration) (root : Vector4) (l0 l1 l2 : ℝ)
    (h0 s0 e0 : Option ℝ) (p0 : 0 < l0) (p1 : 0 < l1) (p2 : 0 < l2) :
    Real.arccos ((l1 ^ 2 + l2 ^ 2 - (l1 + l2) ^ 2) / (2 * l1 * l2)) = PI ∧
      Real.arccos ((l1 ^ 2 + (l1 + l2) ^ 2 - l2 ^ 2) / (2 * l1 * (l1 + l2))) = 0 ∧
      (fdiv (0.5 * (l1 * l1 + l2 * l2 - (l1 + l2) * (l1 + l2))) (l1 * l2)).bind acosf =
        some PI ∧
      (fdiv (0.5 * (l1 * l1 + (l1 + l2) * (l1 + l2) - l2 * l2)) (l1 * (l1 + l2))).bind acosf =
        some 0 ∧
      ∀ t : Vector4, l0 ≤ planarDist t →
        (Limb.new cfg root l0 l1 l2 h0 s0 e0).toeDist t = l1 + l2 →
        fgt (l1 + l2) ((Limb.new cfg root l0 l1 l2 h0 s0 e0).calcIK_d t) = false ∧
          (Limb.new cfg root l0 l1 l2 h0 s0 e0).calcIK_ae t = some PI ∧
          (Limb.new cfg root l0 l1 l2 h0 s0 e0).calcIK_a1 t = some 0 := by
  obtain ⟨r1, r2, -, -⟩ := boundary_quotients l1 l2 p1 p2
  obtain ⟨v1, v2⟩ := boundary_values l1 l2 p1 p2
  refine ⟨?_, ?_, v1, v2, ?_⟩
  · rw [r1, Real.arccos_neg_one, PI]
  · rw [r2, Real.arccos_one]
  · intro t hhip hd
    have hv := calcIK_v_eq (Limb.new cfg root l0 l1 l2 h0 s0 e0) t p0 hhip
    have hs : (Limb.new cfg root l0 l1 l2 h0 s0 e0).l1 + (Limb.new cfg root l0 l1 l2 h0 s0 e0).l2 ≤
        (Limb.new cfg root l0 l1 l2 h0 s0 e0).toeDist t := by
      rw [hd]
      exact le_of_eq rfl
    refine ⟨?_, calcIK_ae_sat _ t hv hs, calcIK_a1_sat _ t hv hs⟩
    rw [calcIK_d_eq _ t hv, hd]
    simp [fgt]

theorem saturation_continuous_witness :
    (0 : ℝ) < 1 ∧ (0 : ℝ) < 2 ∧ (1 : ℝ) ≤ planarDist (Vector4.mk3 1 0 4) ∧
      sampleRight.toeDist (Vector4.mk3 1 0 4) = 2 + 2 ∧
      Real.arccos (((2 : ℝ) ^ 2 + 2 ^ 2 - (2 + 2) ^ 2) / (2 * 2 * 2)) = PI ∧
      sampleRight.calcIK_ae (Vector4.mk3 1 0 4) = some PI :=
  have d4 : sampleRight.toeDist (Vector4.mk3 1 0 4) = 2 + 2 := by
    rw [toeDist_unit _ rfl 4 (by norm_num)]
    norm_num
  have a1 : (0 : ℝ) < 1 := one_pos
  have a2 : (0 : ℝ) < 2 := two_pos
  have a3 : (1 : ℝ) ≤ planarDist (Vector4.mk3 1 0 4) := by rw [planarDist_unit]
  have h := saturation_continuous .frontRight (Vector4.mk3 0 0 0) 1 2 2 none none none a1 a2 a2
  ⟨a1, a2, a3, d4, h.1, (h.2.2.2.2 (Vector4.mk3 1 0 4) a3 d4).2.1⟩

/-! ### The geometry invariant -/

theorem new_geometry (l0 l1 l2 : ℝ) (r0 r1 r2 r3 : Vector4) (h0 s0 e0 : Fin 4 → Option ℝ)
    (target0 : Vector4) (i : Fin 4) :
    ((Robot.new l0 l1 l2 r0 r1 r2 r3 h0 s0 e0 target0).limbs i).configuration =
        Configuration.ofIndex i ∧
      ((Robot.new l0 l1 l2 r0 r1 r2 r3 h0 s0 e0 target0).limbs i).rootOffset =
        rootOf r0 r1 r2 r3 i ∧
      ((Robot.new l0 l1 l2 r0 r1 r2 r3 h0 s0 e0 target0).limbs i).l0 = l0 ∧
      ((Robot.new l0 l1 l2 r0 r1 r2 r3 h0 s0 e0 target0).limbs i).l1 = l1 ∧
      ((Robot.new l0 l1 l2 r0 r1 r2 r3 h0 s0 e0 target0).limbs i).l2 = l2 ∧
      ((Robot.new l0 l1 l2 r0 r1 r2 r3 h0 s0 e0 target0).limbs i).l0sq = l0 * l0 ∧
      ((Robot.new l0 l1 l2 r0 r1 r2 r3 h0 s0 e0 target0).limbs i).l1sq = l1 * l1 ∧
      ((Robot.new l0 l1 l2 r0 r1 r2 r3 h0 s0 e0 target0).limbs i).l2sq = l2 * l2 := by
  fin_cases i <;> exact ⟨rfl, rfl, rfl, rfl, rfl, rfl, rfl, rfl⟩

/-- C17: in every robot reachable from the construction `Robot(l0, l1, l2, r0, r1, r2, r3)`
by calls of `setIKTargets`, `setAngles` and `update`, the limb of index i has the i-th
configuration (0 = frontRight, 1 = frontLeft, 2 = backRight, 3 = backLeft), the root offset
ri, the link lengths l0, l1, l2 of the construction, and cached squares l0*l0, l1*l1,
l2*l2. -/
theorem reachable_geometry (l0 l1 l2 : ℝ) (r0 r1 r2 r3 : Vector4) (r : Robot)
    (h : Robot.Reachable l0 l1 l2 r0 r1 r2 r3 r) (i : Fin 4) :
    (r.limbs i).configuration = Configuration.ofIndex i ∧
      (r.limbs i).rootOffset = rootOf r0 r1 r2 r3 i ∧
      (r.limbs i).l0 = l0 ∧ (r.limbs i).l1 = l1 ∧ (r.limbs i).l2 = l2 ∧
      (r.limbs i).l0sq = l0 * l0 ∧ (r.limbs i).l1sq = l1 * l1 ∧
      (r.limbs i).l2sq = l2 * l2 := by
  induction h with
  | new h0 s0 e0 target0 => exact new_geometry l0 l1 l2 r0 r1 r2 r3 h0 s0 e0 target0 i
  | setIKTargets a b c d _ ih =>
    rw [setIKTargets_limbs]
    exact ih
  | setAngles hh ss ee _ ih =>
    rw [setAngles_limbs]
    exact ih
  | @update r' _ ih =>
    rw [update_limbs]
    obtain ⟨g1, g2, g3, g4, g5, g6, g7, g8⟩ :=
      calcIKAngles_geometry (r'.limbs i) (r'.ikTargets i)
    obtain ⟨i1, i2, i3, i4, i5, i6, i7, i8⟩ := ih
    exact ⟨g1.trans i1, g2.trans i2, g3.trans i3, g5.trans i4, g7.trans i5, g4.trans i6,
      g6.trans i7, g8.trans i8⟩

theorem reachable_geometry_witness :
    Robot.Reachable 5 10 10 (Vector4.mk3 3 2 0) (Vector4.mk3 3 (-2) 0) (Vector4.mk3 (-3) 2 0)
        (Vector4.mk3 (-3) (-2) 0) endToEndSample ∧
      (endToEndSample.limbs 1).configuration = .frontLeft ∧
      (endToEndSample.limbs 1).rootOffset = Vector4.mk3 3 (-2) 0 ∧
      (endToEndSample.limbs 1).l1sq = 10 * 10 :=
  have hr : Robot.Reachable 5 10 10 (Vector4.mk3 3 2 0) (Vector4.mk3 3 (-2) 0)
      (Vector4.mk3 (-3) 2 0) (Vector4.mk3 (-3) (-2) 0) endToEndSample :=
    Robot.Reachable.update (Robot.Reachable.setIKTargets _ _ _ _
      (Robot.Reachable.new (fun _ => none) (fun _ => none) (fun _ => none) (Vector4.mk3 0 0 0)))
  have h := reachable_geometry 5 10 10 (Vector4.mk3 3 2 0) (Vector4.mk3 3 (-2) 0)
    (Vector4.mk3 (-3) 2 0) (Vector4.mk3 (-3) (-2) 0) endToEndSample hr 1
  ⟨hr, h.1, h.2.1, h.2.2.2.2.2.2.1⟩

end Kinematics

end QD
